import Mathlib

/-!
Verification development for the GITCG match engine (server/match.py and
server/action.py of the repository), shallowly embedded in Lean 4.

Conventions of the embedding:
* Python `int` becomes `Int` where the value can be negative (hp, charge,
  player and charactor indices, damage), `Nat` where it is a count.
* Python list indexing (including the negative-index wrap) is modelled by
  `pyIdx` / `pyGetD` / `pySet`; out-of-range accesses yield a default value,
  theorems always carry in-range hypotheses.
* Python exceptions that escape a function (`raise`, `ValueError`) are
  modelled with `Except String`; branches that merely log and set the match
  state to ERROR are modelled as ordinary returns, exactly as in the source.
* The numpy random source is external to the repository; following the spec
  it is modelled as an explicit serializable PRNG (a linear congruential
  generator on `Nat`) threaded through the state.
* Event handlers of game objects are defined outside the provided sources;
  the dispatch result is therefore a parameter `trig` of every function that
  calls `_trigger_event`, ranging over arbitrary handler outcomes.
-/

deriving instance DecidableEq for Except

namespace GITCG

/-! ## Basic enums (server/consts.py values used by match.py) -/

/-- Die colors, one per element plus OMNI. -/
inductive DieColor
  | cryo | pyro | hydro | electro | geo | dendro | anemo | omni
deriving DecidableEq, Repr

/-- Elemental types that can be carried by charactors and damages. -/
inductive ElementType
  | cryo | pyro | hydro | electro | geo | dendro | anemo
deriving DecidableEq, Repr

/-- Damage types: the seven elements, physical, piercing and heal. -/
inductive DamageType
  | physical | piercing | heal
  | cryo | pyro | hydro | electro | geo | dendro | anemo
deriving DecidableEq, Repr

/-- Modelled from the spec: the DAMAGE_TYPE_TO_ELEMENT table of
server/consts.py is not among the provided sources.  Elemental damage maps
to its element; physical, piercing and heal carry no element. -/
def damageTypeToElement : DamageType → Option ElementType
  | .cryo => some .cryo
  | .pyro => some .pyro
  | .hydro => some .hydro
  | .electro => some .electro
  | .geo => some .geo
  | .dendro => some .dendro
  | .anemo => some .anemo
  | _ => none

/-- Modelled from the spec: ELEMENT_TO_DIE_COLOR of server/consts.py is not
among the provided sources; each element maps to the die color of the same
name. -/
def elementToDieColor : ElementType → DieColor
  | .cryo => .cryo
  | .pyro => .pyro
  | .hydro => .hydro
  | .electro => .electro
  | .geo => .geo
  | .dendro => .dendro
  | .anemo => .anemo

/-- Elemental reaction types of the spec's reaction table. -/
inductive ReactionType
  | noReaction | vaporize | melt | overloaded | electroCharged
  | superconduct | frozen | bloom | quicken | burning | swirl | crystallize
deriving DecidableEq, Repr

/-! ## Python-list helpers -/

/-- Resolve a Python list index (negative indices wrap from the end);
`none` models an IndexError. -/
def pyIdx (n : Nat) (i : Int) : Option Nat :=
  if 0 ≤ i ∧ i < (n : Int) then some i.toNat
  else if -(n : Int) ≤ i ∧ i < 0 then some ((n : Int) + i).toNat
  else none

/-- Read a Python list element, with a default for out-of-range access. -/
def pyGetD {α : Type} (xs : List α) (i : Int) (d : α) : α :=
  match pyIdx xs.length i with
  | some k => xs.getD k d
  | none => d

/-- Write a Python list element; out-of-range writes are dropped. -/
def pySet {α : Type} (xs : List α) (i : Int) (v : α) : List α :=
  match pyIdx xs.length i with
  | some k => xs.set k v
  | none => xs

/-- Python slice `xs[:k]`, where a negative `k` counts from the end. -/
def pyTake {α : Type} (xs : List α) (k : Int) : List α :=
  if 0 ≤ k then xs.take k.toNat else xs.take ((xs.length : Int) + k).toNat

/-- Python slice `xs[k:]`, where a negative `k` counts from the end. -/
def pyDrop {α : Type} (xs : List α) (k : Int) : List α :=
  if 0 ≤ k then xs.drop k.toNat else xs.drop ((xs.length : Int) + k).toNat

/-- Insert into a list sorted according to `le`. -/
def insertBy {α : Type} (le : α → α → Bool) (x : α) : List α → List α
  | [] => [x]
  | y :: ys => if le x y then x :: y :: ys else y :: insertBy le x ys

/-- Insertion sort by the boolean relation `le`. -/
def sortBy {α : Type} (le : α → α → Bool) : List α → List α
  | [] => []
  | x :: xs => insertBy le x (sortBy le xs)

/-- `list.sort(reverse=True)` on natural numbers: sort descending. -/
def sortDesc (xs : List Nat) : List Nat := sortBy (fun a b => b ≤ a) xs

theorem length_insertBy {α : Type} (le : α → α → Bool) (x : α) (xs : List α) :
    (insertBy le x xs).length = xs.length + 1 := by
  induction xs with
  | nil => rfl
  | cons y ys ih =>
      simp only [insertBy]
      split <;> simp [ih]

theorem length_sortBy {α : Type} (le : α → α → Bool) (xs : List α) :
    (sortBy le xs).length = xs.length := by
  induction xs with
  | nil => rfl
  | cons x xs ih => simp [sortBy, length_insertBy, ih]

theorem perm_insertBy {α : Type} (le : α → α → Bool) (x : α) (xs : List α) :
    (insertBy le x xs).Perm (x :: xs) := by
  induction xs with
  | nil => exact List.Perm.refl _
  | cons y ys ih =>
      simp only [insertBy]
      split
      · exact List.Perm.refl _
      · exact (List.Perm.cons y ih).trans (List.Perm.swap x y ys)

theorem perm_sortBy {α : Type} (le : α → α → Bool) (xs : List α) :
    (sortBy le xs).Perm xs := by
  induction xs with
  | nil => exact List.Perm.refl _
  | cons x xs ih => exact (perm_insertBy le x _).trans (ih.cons x)

/-! ## PRNG model -/

/-- Modelled from the spec: the source delegates randomness to an external
numpy RandomState; spec section 9 prescribes an explicit serializable PRNG
whose every call advances the state.  We use a linear congruential generator
on `Nat`. -/
def rngNext (s : Nat) : Nat := (s * 1103515245 + 12345) % 4294967296

/-- Draw a value below `k` (uniform choice of a list index, matching
`candidates[int(random() * len(candidates))]` in the source) and the
advanced PRNG state. -/
def randBelow (s k : Nat) : Nat × Nat := (rngNext s % k, rngNext s)

/-- One pass of a selection shuffle with explicit fuel (the fuel is the
initial length, so it never runs out). -/
def shuffleGo {α : Type} (d : α) : Nat → List α → Nat → List α × Nat
  | 0, _, s => ([], s)
  | _ + 1, [], s => ([], s)
  | f + 1, xs, s =>
      let p := randBelow s xs.length
      let rest := shuffleGo d f (xs.eraseIdx p.1) p.2
      (xs.getD p.1 d :: rest.1, rest.2)

/-- Modelled from the spec: `_random_shuffle` calls into the external numpy
RandomState; we model a deterministic shuffle driven by the explicit PRNG. -/
def shuffleList {α : Type} (d : α) (xs : List α) (s : Nat) : List α × Nat :=
  shuffleGo d xs.length xs s

/-! ## Data model (server/player_table.py and friends, via the spec) -/

/-- An action card; only its name is observed by match.py. -/
structure Card where
  name : String
deriving DecidableEq, Repr

instance : Inhabited Card := ⟨⟨""⟩⟩

/-- A charactor slot, as described by the spec's data model and mutated by
match.py (hp, charge, element_application, is_alive, equipment, status). -/
structure Charactor where
  name : String
  element : ElementType
  max_hp : Int
  hp : Int
  max_charge : Int
  charge : Int
  element_application : List ElementType
  is_alive : Bool
  weapon : Option Nat
  artifact : Option Nat
  talent : Option Nat
  status : List Nat
deriving DecidableEq, Repr

/-- Default charactor, used for out-of-range list reads. -/
def dfltChar : Charactor :=
  { name := "", element := .pyro, max_hp := 0, hp := 0, max_charge := 0,
    charge := 0, element_application := [], is_alive := false,
    weapon := none, artifact := none, talent := none, status := [] }

instance : Inhabited Charactor := ⟨dfltChar⟩

/-- Per-player mutable state used by match.py. -/
structure PlayerTable where
  table_deck : List Card
  hands : List Card
  dice : List DieColor
  charactors : List Charactor
  active_charactor_id : Int
  has_round_ended : Bool
deriving DecidableEq, Repr

/-- Modelled from the spec: `PlayerTable.next_charactor_id` is declared in
server/player_table.py, which is not among the provided sources.  Per the
spec it returns the next living charactor index after the active one,
skipping defeated charactors and wrapping forward, or `none` when no other
living charactor exists. -/
def PlayerTable.next_charactor_id (t : PlayerTable) : Option Nat :=
  let n := t.charactors.length
  let a := t.active_charactor_id.toNat
  ((List.range (n - 1)).map (fun k => (a + 1 + k) % n)).find?
    (fun i => (t.charactors.getD i dfltChar).is_alive)

/-- Fixed order of die colors, used as the final sort tiebreak. -/
def dieColorOrd : DieColor → Nat
  | .omni => 0
  | .cryo => 1
  | .pyro => 2
  | .hydro => 3
  | .electro => 4
  | .geo => 5
  | .dendro => 6
  | .anemo => 7

/-- Comparison key of the dice pool sort: active-charactor element first,
then OMNI, then count-descending, then color order. -/
def diceLe (activeColor : DieColor) (pool : List DieColor) (a b : DieColor) :
    Bool :=
  let aAct := a = activeColor
  let bAct := b = activeColor
  if aAct ≠ bAct then aAct
  else if (a = DieColor.omni) ≠ (b = DieColor.omni) then a = DieColor.omni
  else
    let ca := pool.count a
    let cb := pool.count b
    if ca ≠ cb then cb < ca
    else dieColorOrd a ≤ dieColorOrd b

/-- Modelled from the spec: `PlayerTable.sort_dice` is declared in
server/player_table.py, which is not among the provided sources.  Per the
spec the pool is sorted by a stable key: active-charactor element first,
then OMNI, then count-descending, then color order. -/
def PlayerTable.sort_dice (t : PlayerTable) : PlayerTable :=
  let activeColor :=
    elementToDieColor (pyGetD t.charactors t.active_charactor_id dfltChar).element
  { t with dice := sortBy (diceLe activeColor t.dice) t.dice }

/-- Both player tables; `get`/`set` mirror `player_tables[i]` for i in 0, 1
(as `1 - player_id` is the only other index the source uses). -/
structure PlayerPair where
  p0 : PlayerTable
  p1 : PlayerTable
deriving DecidableEq, Repr

def PlayerPair.get (ps : PlayerPair) (i : Int) : PlayerTable :=
  if i = 0 then ps.p0 else ps.p1

def PlayerPair.set (ps : PlayerPair) (i : Int) (t : PlayerTable) : PlayerPair :=
  if i = 0 then { ps with p0 := t } else { ps with p1 := t }

/-- Match configuration (class MatchConfig of match.py). -/
structure MatchConfig where
  random_first_player : Bool
  initial_hand_size : Nat
  initial_card_draw : Nat
  initial_dice_number : Nat
  initial_dice_reroll_times : Nat
  card_number : Nat
  max_same_card_number : Nat
  charactor_number : Nat
  max_round_number : Nat
  max_hand_size : Nat
  max_dice_number : Nat
  max_summon_number : Nat
  max_support_number : Nat
deriving DecidableEq, Repr

/-- Default configuration values of MatchConfig. -/
def defaultConfig : MatchConfig :=
  { random_first_player := true, initial_hand_size := 5,
    initial_card_draw := 2, initial_dice_number := 8,
    initial_dice_reroll_times := 1, card_number := 30,
    max_same_card_number := 2, charactor_number := 3, max_round_number := 15,
    max_hand_size := 10, max_dice_number := 16, max_summon_number := 4,
    max_support_number := 4 }

/-- States of a match (enum MatchState of match.py). -/
inductive MatchState
  | INVALID | ERROR | WAITING
  | STARTING | STARTING_CARD_SWITCH | STARTING_CHOOSE_CHARACTOR
  | ROUND_START | ROUND_ROLL_DICE | ROUND_PREPARING
  | PLAYER_ACTION_START | PLAYER_ACTION_REQUEST | PLAYER_ACTION_ACT
  | ROUND_ENDING | ROUND_ENDED | ENDED
deriving DecidableEq, Repr

/-- Outstanding requests (server/interaction.py is not among the provided
sources; each request is modelled with exactly the fields match.py reads or
writes: the owning player and, for reroll requests, the dice colors and the
remaining reroll count). -/
inductive Request
  | switchCard (player_id : Int) (card_names : List String)
  | chooseCharactor (player_id : Int) (available_charactor_ids : List Nat)
  | rerollDice (player_id : Int) (colors : List DieColor) (reroll_times : Nat)
  | declareRoundEnd (player_id : Int)
deriving DecidableEq, Repr

/-- The player a request belongs to. -/
def Request.player_id : Request → Int
  | .switchCard p _ => p
  | .chooseCharactor p _ => p
  | .rerollDice p _ _ => p
  | .declareRoundEnd p => p

/-- A damage value (class DamageValue of server/modifiable_values.py, with
the fields match.py reads). -/
structure DamageValue where
  target_player_id : Int
  target_charactor_id : Int
  damage : Int
  damage_type : DamageType
deriving DecidableEq, Repr

/-- Card position argument of RemoveCardAction. -/
inductive CardPos
  | hand | deck
deriving DecidableEq, Repr

/-- Remove type argument of RemoveCardAction. -/
inductive RemoveType
  | used | burned
deriving DecidableEq, Repr

/-- Primitive actions (server/action.py). -/
inductive Action
  | empty
  | drawCard (player_id : Int) (number : Nat)
  | restoreCard (player_id : Int) (card_ids : List Nat)
  | removeCard (player_id : Int) (card_id : Nat) (card_position : CardPos)
      (remove_type : RemoveType)
  | chooseCharactor (player_id : Int) (charactor_id : Int)
  | createDice (player_id : Int) (number : Nat) (color : Option DieColor)
      (random : Bool) (different : Bool)
  | removeDice (player_id : Int) (dice_ids : List Nat)
  | declareRoundEnd (player_id : Int)
  | combatAction (player_id : Int)
  | switchCharactor (player_id : Int) (charactor_id : Int)
  | makeDamage (player_id : Int) (damage_value_list : List DamageValue)
      (target_id : Int) (change_charactor : Int)
  | charge (player_id : Int) (charactor_id : Int) (charge : Int)
  | skillEnd (player_id : Int) (charactor_id : Int)
  | charactorDefeated (player_id : Int) (charactor_id : Int)
  | generateChooseCharactorRequest (player_id : Int)
deriving DecidableEq, Repr

/-- Payload of one ReceiveDamageEventArguments. -/
structure ReceiveDamageInfo where
  action : Action
  original_damage : DamageValue
  final_damage : DamageValue
  hp_before : Int
  hp_after : Int
  elemental_reaction : ReactionType
  reacted_elements : List ElementType
deriving DecidableEq, Repr

/-- Event arguments produced by the action functions (server/event.py
content, restricted to the data match.py stores in them). -/
inductive EventArg
  | drawCard (action : Action)
  | restoreCard (action : Action) (card_names : List String)
  | removeCard (action : Action) (card_name : String)
  | chooseCharactor (action : Action) (original_charactor_id : Int)
  | createDice (action : Action)
      (colors_generated colors_over_maximum : List DieColor)
  | removeDice (action : Action) (colors_removed : List DieColor)
  | roundPrepare (player_go_first : Int) (round : Int)
      (dice_colors : List (List DieColor))
  | declareRoundEnd (action : Action)
  | combatAction (action : Action)
  | switchCharactor (action : Action) (last_active_charactor_id : Int)
  | charge (action : Action) (charge_before charge_after : Int)
  | skillEnd (action : Action)
  | receiveDamage (info : ReceiveDamageInfo)
  | makeDamage (action : Action) (damages : List ReceiveDamageInfo)
      (charactor_hps : List (List Int)) (charactor_alive : List (List Bool))
  | afterMakeDamage (action : Action) (damages : List ReceiveDamageInfo)
      (charactor_hps : List (List Int)) (charactor_alive : List (List Bool))
  | charactorDefeated (action : Action) (need_switch : Bool)
deriving DecidableEq, Repr

/-- The match state (class Match of match.py; the random state is the
explicit PRNG seed). -/
structure Match where
  config : MatchConfig
  rng : Nat
  round_number : Int
  current_player : Int
  player_tables : PlayerPair
  match_state : MatchState
  action_queues : List (List Action)
  requests : List Request
  winner : Int
deriving DecidableEq, Repr

/-- The type of the event-dispatch oracle: given the current match and an
event, the concatenated actions returned by all object handlers.  The
handlers themselves live in object code outside the provided sources, so
every theorem quantifies over this function. -/
def Trig : Type := Match → EventArg → List Action

/-- `_trigger_events`: dispatch a list of events in order, concatenating
the returned actions. -/
def triggerEvents (trig : Trig) (m : Match) (evs : List EventArg) :
    List Action :=
  evs.foldl (fun acc e => acc ++ trig m e) []

/-! ## Elemental reactions (server/elemental_reaction.py, via the spec) -/

/-- Elements that Swirl and Crystallize react with. -/
def isSwirlable : ElementType → Bool
  | .cryo => true
  | .pyro => true
  | .hydro => true
  | .electro => true
  | _ => false

/-- The reaction of an incoming element against one applied element
(symmetric), per the spec's reaction table. -/
def reactionOfPair (a b : ElementType) : ReactionType :=
  if (a = .pyro ∧ b = .hydro) ∨ (a = .hydro ∧ b = .pyro) then .vaporize
  else if (a = .pyro ∧ b = .cryo) ∨ (a = .cryo ∧ b = .pyro) then .melt
  else if (a = .electro ∧ b = .hydro) ∨ (a = .hydro ∧ b = .electro) then
    .electroCharged
  else if (a = .pyro ∧ b = .electro) ∨ (a = .electro ∧ b = .pyro) then
    .overloaded
  else if (a = .electro ∧ b = .cryo) ∨ (a = .cryo ∧ b = .electro) then
    .superconduct
  else if (a = .cryo ∧ b = .hydro) ∨ (a = .hydro ∧ b = .cryo) then .frozen
  else if (a = .dendro ∧ b = .hydro) ∨ (a = .hydro ∧ b = .dendro) then .bloom
  else if (a = .dendro ∧ b = .electro) ∨ (a = .electro ∧ b = .dendro) then
    .quicken
  else if (a = .dendro ∧ b = .pyro) ∨ (a = .pyro ∧ b = .dendro) then .burning
  else .noReaction

/-- Modelled from the spec: `check_elemental_reaction` lives in
server/elemental_reaction.py, which is not among the provided sources.
Given the incoming element (none for physical, piercing and heal) and the
target's applied elements it returns the reaction, the reacted elements and
the new applied-element list, per the spec's reaction table: no element or
same element reacts with nothing (retaining the aura, and a persisting
element with no reaction partner is appended); Anemo swirls and Geo
crystallizes against a persisted swirlable element and never persist
themselves; a reacting pair consumes the applied element. -/
def checkElementalReaction (incoming : Option ElementType)
    (apps : List ElementType) :
    ReactionType × List ElementType × List ElementType :=
  match incoming with
  | none => (.noReaction, [], apps)
  | some e =>
    if e = .anemo then
      match apps.find? (fun x => isSwirlable x) with
      | some x => (.swirl, [.anemo, x], apps.erase x)
      | none => (.noReaction, [], apps)
    else if e = .geo then
      match apps.find? (fun x => isSwirlable x) with
      | some x => (.crystallize, [.geo, x], apps.erase x)
      | none => (.noReaction, [], apps)
    else if e ∈ apps then (.noReaction, [], apps)
    else
      match apps.find? (fun x => reactionOfPair e x ≠ .noReaction) with
      | some x => (reactionOfPair e x, [e, x], apps.erase x)
      | none => (.noReaction, [], apps ++ [e])

/-- Splash damages of type `dt` and value 1 aimed at every other living
charactor of the target player. -/
def splashDamages (charactors : List Charactor) (dv : DamageValue)
    (dt : DamageType) : List DamageValue :=
  ((List.range charactors.length).filter
      (fun (i : Nat) => ((i : Int) ≠ dv.target_charactor_id ∧
        (charactors.getD i dfltChar).is_alive))).map
    (fun (i : Nat) =>
      { target_player_id := dv.target_player_id,
        target_charactor_id := (i : Int), damage := 1, damage_type := dt })

/-- Modelled from the spec: `apply_elemental_reaction` lives in
server/elemental_reaction.py, which is not among the provided sources.  It
returns the (possibly modified) primary damage followed by any
reaction-induced extra damages, per the spec: Vaporize, Melt and Overloaded
add 2; the remaining damaging reactions add 1; ElectroCharged pierces the
other living charactors for 1, Superconduct splashes them with physical 1;
Swirl converts the damage type to the swirled element and splashes 1 of it;
status- or summon-creating side effects are outside match.py. -/
def applyElementalReaction (charactors : List Charactor) (dv : DamageValue)
    (r : ReactionType) (reacted : List ElementType) : List DamageValue :=
  match r with
  | .noReaction => [dv]
  | .vaporize => [{ dv with damage := dv.damage + 2 }]
  | .melt => [{ dv with damage := dv.damage + 2 }]
  | .overloaded => [{ dv with damage := dv.damage + 2 }]
  | .electroCharged =>
      { dv with damage := dv.damage + 1 } ::
        splashDamages charactors dv .piercing
  | .superconduct =>
      { dv with damage := dv.damage + 1 } ::
        splashDamages charactors dv .physical
  | .frozen => [{ dv with damage := dv.damage + 1 }]
  | .bloom => [{ dv with damage := dv.damage + 1 }]
  | .quicken => [{ dv with damage := dv.damage + 1 }]
  | .burning => [{ dv with damage := dv.damage + 1 }]
  | .crystallize => [{ dv with damage := dv.damage + 1 }]
  | .swirl =>
      let e := reacted.getD 1 .pyro
      let dt : DamageType :=
        match e with
        | .cryo => .cryo
        | .pyro => .pyro
        | .hydro => .hydro
        | .electro => .electro
        | .geo => .geo
        | .dendro => .dendro
        | .anemo => .anemo
      { dv with damage_type := dt } :: splashDamages charactors dv dt

/-! ## Action functions (`_action_*` of match.py) -/

/-- `_action_draw_card`: move up to `number` cards from the top of the deck
to the hand; there is no hand-size check in the source (its TODO notes that
destroying over-limit cards is unimplemented). -/
def Match.actionDrawCard (m : Match) (player_id : Int) (number : Nat) :
    Match × List EventArg :=
  let table := m.player_tables.get player_id
  let n := min number table.table_deck.length
  let table' := { table with
    hands := table.hands ++ table.table_deck.take n,
    table_deck := table.table_deck.drop n }
  ({ m with player_tables := m.player_tables.set player_id table' },
    [EventArg.drawCard (Action.drawCard player_id number)])

/-- The pop loop shared by `_action_restore_card` and
`_action_remove_dice`: walk the index list, each step popping the element at
that index of the current list and collecting it; returns the remaining
list and the collected elements in pop order. -/
def popFold {α : Type} (d : α) : List α → List Nat → List α × List α
  | xs, [] => (xs, [])
  | xs, i :: is =>
      let r := popFold d (xs.eraseIdx i) is
      (r.1, xs.getD i d :: r.2)

/-- `_action_restore_card`: append the cards at `card_ids` (processed in
descending index order) to the bottom of the deck and drop them from the
hand; the event names are read from the pre-removal hand. -/
def Match.actionRestoreCard (m : Match) (player_id : Int)
    (card_ids : List Nat) : Match × List EventArg :=
  let table := m.player_tables.get player_id
  let ids := sortDesc card_ids
  let card_names := ids.map (fun cid => (table.hands.getD cid default).name)
  let popped := popFold default table.hands ids
  let table' := { table with
    table_deck := table.table_deck ++ popped.2,
    hands := popped.1 }
  ({ m with player_tables := m.player_tables.set player_id table' },
    [EventArg.restoreCard (Action.restoreCard player_id card_ids) card_names])

/-- `_action_remove_card`: pop one card from hand or deck. -/
def Match.actionRemoveCard (m : Match) (player_id : Int) (card_id : Nat)
    (card_position : CardPos) (remove_type : RemoveType) :
    Match × List EventArg :=
  let table := m.player_tables.get player_id
  let ev := fun (name : String) =>
    [EventArg.removeCard
      (Action.removeCard player_id card_id card_position remove_type) name]
  match card_position with
  | .hand =>
      let card := table.hands.getD card_id default
      let table' := { table with hands := table.hands.eraseIdx card_id }
      ({ m with player_tables := m.player_tables.set player_id table' },
        ev card.name)
  | .deck =>
      let card := table.table_deck.getD card_id default
      let table' :=
        { table with table_deck := table.table_deck.eraseIdx card_id }
      ({ m with player_tables := m.player_tables.set player_id table' },
        ev card.name)

/-- `_action_choose_charactor`: set the active charactor. -/
def Match.actionChooseCharactor (m : Match) (player_id charactor_id : Int) :
    Match × List EventArg :=
  let table := m.player_tables.get player_id
  let original := table.active_charactor_id
  let table' := { table with active_charactor_id := charactor_id }
  ({ m with player_tables := m.player_tables.set player_id table' },
    [EventArg.chooseCharactor (Action.chooseCharactor player_id charactor_id)
      original])

/-- Candidate colors for random or different dice (OMNI excluded here; the
random case appends it). -/
def dieCandidates : List DieColor :=
  [.cryo, .pyro, .hydro, .electro, .geo, .dendro, .anemo]

/-- Generate `k` random dice, advancing the PRNG once per die, matching the
per-die `candidates[int(random() * len(candidates))]` of the source. -/
def genRandomDice : Nat → Nat → List DieColor × Nat
  | 0, s => ([], s)
  | k + 1, s =>
      let cands := dieCandidates ++ [DieColor.omni]
      let p := randBelow s cands.length
      let rest := genRandomDice k p.2
      (cands.getD p.1 .omni :: rest.1, rest.2)

/-- `_action_create_dice`: create dice of a fixed color, random colors, or
pairwise-different colors; dice over `max_dice_number` are silently
discarded, and the pool is re-sorted. -/
def Match.actionCreateDice (m : Match) (player_id : Int) (number : Nat)
    (color : Option DieColor) (isRandom isDifferent : Bool) :
    Match × List EventArg :=
  let table := m.player_tables.get player_id
  let act := Action.createDice player_id number color isRandom isDifferent
  if isRandom ∧ isDifferent then ({ m with match_state := .ERROR }, [])
  else
    let gen : Option (List DieColor × Nat) :=
      if isRandom then some (genRandomDice number m.rng)
      else if isDifferent then
        if dieCandidates.length < number then none
        else
          let p := shuffleList DieColor.omni dieCandidates m.rng
          some (p.1.take number, p.2)
      else
        match color with
        | none => none
        | some c => some (List.replicate number c, m.rng)
    match gen with
    | none => ({ m with match_state := .ERROR }, [])
    | some (dice, rng') =>
        let maxObtain : Int :=
          (m.config.max_dice_number : Int) - table.dice.length
        let kept := pyTake dice maxObtain
        let over := pyDrop dice maxObtain
        let table' :=
          PlayerTable.sort_dice { table with dice := table.dice ++ kept }
        ({ m with
            player_tables := m.player_tables.set player_id table',
            rng := rng' },
          [EventArg.createDice act kept over])

/-- `_action_remove_dice`: pop the dice at `dice_ids` (sorted descending in
place by the source) and re-sort the pool. -/
def Match.actionRemoveDice (m : Match) (player_id : Int)
    (dice_ids : List Nat) : Match × List EventArg :=
  let table := m.player_tables.get player_id
  let ids := sortDesc dice_ids
  let res := popFold DieColor.omni table.dice ids
  let table' := PlayerTable.sort_dice { table with dice := res.1 }
  ({ m with player_tables := m.player_tables.set player_id table' },
    [EventArg.removeDice (Action.removeDice player_id ids) res.2])

/-- `_action_declare_round_end`: set the player's round-ended flag. -/
def Match.actionDeclareRoundEnd (m : Match) (player_id : Int) :
    Match × List EventArg :=
  let table := m.player_tables.get player_id
  let table' := { table with has_round_ended := true }
  ({ m with player_tables := m.player_tables.set player_id table' },
    [EventArg.declareRoundEnd (Action.declareRoundEnd player_id)])

/-- `_action_combat_action`: pass the turn to the other player unless the
other player has declared round end and this player has not. -/
def Match.actionCombatAction (m : Match) (player_id : Int) :
    Match × List EventArg :=
  let m' :=
    if (m.player_tables.get (1 - player_id)).has_round_ended ∧
        ¬ (m.player_tables.get player_id).has_round_ended then m
    else { m with current_player := 1 - player_id }
  (m', [EventArg.combatAction (Action.combatAction player_id)])

/-- `_action_switch_charactor`: set the active charactor and report the
previous one. -/
def Match.actionSwitchCharactor (m : Match) (player_id charactor_id : Int) :
    Match × List EventArg :=
  let table := m.player_tables.get player_id
  let current := table.active_charactor_id
  let table' := { table with active_charactor_id := charactor_id }
  ({ m with player_tables := m.player_tables.set player_id table' },
    [EventArg.switchCharactor (Action.switchCharactor player_id charactor_id)
      current])

/-- `_action_charge`: add the delta to the charge of the acting player's
**active** charactor (the action's charactor_id is not read), capping above
at max_charge only. -/
def Match.actionCharge (m : Match) (player_id charactor_id chg : Int) :
    Match × List EventArg :=
  let table := m.player_tables.get player_id
  let ch := pyGetD table.charactors table.active_charactor_id dfltChar
  let old := ch.charge
  let c1 := ch.charge + chg
  let c2 := if ch.max_charge < c1 then ch.max_charge else c1
  let table' := { table with
    charactors := pySet table.charactors table.active_charactor_id
      { ch with charge := c2 } }
  ({ m with player_tables := m.player_tables.set player_id table' },
    [EventArg.charge (Action.charge player_id charactor_id chg) old c2])

/-- `_action_charactor_defeated`: clear equipment, status and applied
elements, clear is_alive, and reset the active id to -1 when the defeated
charactor was active. -/
def Match.actionCharactorDefeated (m : Match) (player_id charactor_id : Int) :
    Match × List EventArg :=
  let table := m.player_tables.get player_id
  let ch := pyGetD table.charactors charactor_id dfltChar
  let ch' := { ch with
    weapon := none, artifact := none, talent := none, status := [],
    element_application := [], is_alive := false }
  let table' := { table with
    charactors := pySet table.charactors charactor_id ch' }
  let needSwitch := table.active_charactor_id = charactor_id
  let table'' :=
    if needSwitch then { table' with active_charactor_id := -1 } else table'
  ({ m with player_tables := m.player_tables.set player_id table'' },
    [EventArg.charactorDefeated
      (Action.charactorDefeated player_id charactor_id) needSwitch])

/-- `_action_skill_end`: no state change, one event. -/
def Match.actionSkillEnd (m : Match) (player_id charactor_id : Int) :
    Match × List EventArg :=
  (m, [EventArg.skillEnd (Action.skillEnd player_id charactor_id)])

/-! ## The damage pipeline (`_action_make_damage`) -/

/-- Total number of charactors, used only to size the damage-loop fuel. -/
def Match.totalCharactors (m : Match) : Nat :=
  m.player_tables.p0.charactors.length + m.player_tables.p1.charactors.length

/-- The while-loop of `_action_make_damage`, with fuel.  Each round pops the
first damage, computes the reaction, schedules the overloaded forced switch
(raising when the overloaded target player mismatches the action's target),
applies the reaction (appending induced damages to the list), passes the
value through the three modifier chains (which are identity here: the
 `_modify_value` body of this source modifies nothing), clamps hp below at 0
and replaces the applied elements. -/
def Match.makeDamageLoop (target_id : Int) (act : Action) :
    Nat → Match → List DamageValue → Int → List ReceiveDamageInfo →
    Except String (Match × Int × List ReceiveDamageInfo)
  | _, m, [], nc, infos => .ok (m, nc, infos)
  | 0, _, _ :: _, _, _ => .error "damage loop fuel exhausted"
  | f + 1, m, damage :: rest, nc, infos =>
      let table := m.player_tables.get damage.target_player_id
      let ch := pyGetD table.charactors damage.target_charactor_id dfltChar
      let elem := damageTypeToElement damage.damage_type
      let r := checkElementalReaction elem ch.element_application
      if r.1 = ReactionType.overloaded ∧
          damage.target_charactor_id = table.active_charactor_id ∧
          damage.target_player_id ≠ target_id then
        .error "overloaded damage target player does not match action target"
      else
        let nc' :=
          if r.1 = ReactionType.overloaded ∧
              damage.target_charactor_id = table.active_charactor_id then
            match table.next_charactor_id with
            | some k => (k : Int)
            | none => nc
          else nc
        let after := applyElementalReaction table.charactors damage r.1 r.2.1
        let damage' := after.headD damage
        let rest' := rest ++ after.tail
        let hpBefore := ch.hp
        let hp1 := ch.hp - damage'.damage
        let hp2 := if hp1 < 0 then 0 else hp1
        let ch' := { ch with hp := hp2, element_application := r.2.2 }
        let table' := { table with
          charactors := pySet table.charactors damage.target_charactor_id ch' }
        let m' := { m with
          player_tables :=
            m.player_tables.set damage.target_player_id table' }
        let info : ReceiveDamageInfo :=
          { action := act, original_damage := damage,
            final_damage := damage', hp_before := hpBefore,
            hp_after := hp2, elemental_reaction := r.1,
            reacted_elements := r.2.1 }
        makeDamageLoop target_id act f m' rest' nc' (infos ++ [info])

/-- Fuel that generously bounds the damage-loop iterations (each damage can
splash at most one extra damage per charactor, and splashes splash no
further, so the true bound is far below this). -/
def dmgFuel (m : Match) (dvl : List DamageValue) : Nat :=
  (dvl.length + 1) * (m.totalCharactors + 1) * (m.totalCharactors + 1) + 1

/-- Per-player hp snapshot used in MakeDamageEventArguments. -/
def Match.hpSnapshot (m : Match) : List (List Int) :=
  [m.player_tables.p0.charactors.map (fun c => c.hp),
    m.player_tables.p1.charactors.map (fun c => c.hp)]

/-- Per-player is_alive snapshot used in MakeDamageEventArguments. -/
def Match.aliveSnapshot (m : Match) : List (List Bool) :=
  [m.player_tables.p0.charactors.map (fun c => c.is_alive),
    m.player_tables.p1.charactors.map (fun c => c.is_alive)]

/-- `_action_make_damage`: drain the damage list, then emit the
MakeDamage, ReceiveDamage and AfterMakeDamage events, and finally perform
the pending charactor switch when it differs from the target player's
active charactor. -/
def Match.actionMakeDamage (m : Match) (player_id : Int)
    (dvl : List DamageValue) (target_id change_charactor : Int) :
    Except String (Match × List EventArg) :=
  let act := Action.makeDamage player_id dvl target_id change_charactor
  match Match.makeDamageLoop target_id act (dmgFuel m dvl) m dvl
      change_charactor [] with
  | .error e => .error e
  | .ok (m', nc, infos) =>
      let mkEvent := EventArg.makeDamage act infos m'.hpSnapshot
        m'.aliveSnapshot
      let afterEvent := EventArg.afterMakeDamage act infos m'.hpSnapshot
        m'.aliveSnapshot
      let events := mkEvent :: (infos.map EventArg.receiveDamage ++
        [afterEvent])
      if nc ≠ (m'.player_tables.get target_id).active_charactor_id then
        let sw := m'.actionSwitchCharactor target_id nc
        .ok (sw.1, events ++ sw.2)
      else
        .ok (m', events)

/-! ## Action dispatch, action queue and step (`_act`, `_next_action`,
`step` of match.py) -/

/-- `_request_choose_charactor` reached through
GenerateChooseCharactorRequestAction: append a choose-charactor request
listing the living charactors; no events. -/
def Match.requestChooseCharactorAction (m : Match) (player_id : Int) :
    Match × List EventArg :=
  let t := m.player_tables.get player_id
  let available := (List.range t.charactors.length).filter
    (fun i => (t.charactors.getD i dfltChar).is_alive)
  ({ m with requests :=
      m.requests ++ [Request.chooseCharactor player_id available] }, [])

/-- `_act`: dispatch a primitive action to its action function.  The
unknown-action branch (reached by the bare base action here) sets the match
state to ERROR. -/
def Match.act (m : Match) : Action → Except String (Match × List EventArg)
  | .empty => .ok ({ m with match_state := .ERROR }, [])
  | .drawCard p n => .ok (m.actionDrawCard p n)
  | .restoreCard p ids => .ok (m.actionRestoreCard p ids)
  | .removeCard p cid pos rt => .ok (m.actionRemoveCard p cid pos rt)
  | .chooseCharactor p cid => .ok (m.actionChooseCharactor p cid)
  | .createDice p n c r d => .ok (m.actionCreateDice p n c r d)
  | .removeDice p ids => .ok (m.actionRemoveDice p ids)
  | .declareRoundEnd p => .ok (m.actionDeclareRoundEnd p)
  | .combatAction p => .ok (m.actionCombatAction p)
  | .switchCharactor p cid => .ok (m.actionSwitchCharactor p cid)
  | .makeDamage p dvl t cc => m.actionMakeDamage p dvl t cc
  | .charge p cid c => .ok (m.actionCharge p cid c)
  | .skillEnd p cid => .ok (m.actionSkillEnd p cid)
  | .charactorDefeated p cid => .ok (m.actionCharactorDefeated p cid)
  | .generateChooseCharactorRequest p =>
      .ok (m.requestChooseCharactorAction p)

/-- Pop trailing empty frames, as the leading while loop of `_next_action`
does (the last list is the top of the stack). -/
def dropTrailEmpty (qs : List (List Action)) : List (List Action) :=
  ((qs.reverse).dropWhile (fun q => q.isEmpty)).reverse

/-- `_next_action`: lazily pop empty frames, pop the first action of the
top frame, act it, trigger the events, and push the triggered actions as a
new top frame when nonempty. -/
def Match.nextAction (trig : Trig) (m : Match) : Except String Match :=
  let qs := dropTrailEmpty m.action_queues
  match qs.getLast? with
  | none => .ok { m with action_queues := [] }
  | some [] => .ok { m with action_queues := qs }
  | some (a :: frameRest) =>
      let m1 := { m with action_queues := qs.dropLast ++ [frameRest] }
      match m1.act a with
      | .error e => .error e
      | .ok (m2, evs) =>
          let triggered := triggerEvents trig m2 evs
          if triggered = [] then .ok m2
          else .ok { m2 with
            action_queues := m2.action_queues ++ [triggered] }

/-! ## Phase functions and `step` -/

/-- `is_game_end`: a player with no living charactor loses (this also sets
the winner, as in the source). -/
def Match.isGameEnd (m : Match) : Bool × Match :=
  if m.player_tables.p0.charactors.all (fun c => !c.is_alive) then
    (true, { m with winner := 1 })
  else if m.player_tables.p1.charactors.all (fun c => !c.is_alive) then
    (true, { m with winner := 0 })
  else (false, m)

/-- `_request_switch_card`: one switch-card request per player, exposing
the hand names. -/
def Match.requestSwitchCard (m : Match) : Match :=
  { m with requests := m.requests ++
      [Request.switchCard 0 (m.player_tables.p0.hands.map (fun c => c.name)),
        Request.switchCard 1
          (m.player_tables.p1.hands.map (fun c => c.name))] }

/-- `_request_choose_charactor` called directly from step. -/
def Match.requestChooseCharactor (m : Match) (player_id : Int) : Match :=
  (m.requestChooseCharactorAction player_id).1

/-- `_request_reroll_dice`: append a reroll request carrying the player's
dice colors and the reroll count. -/
def Match.requestRerollDice (m : Match) (player_id : Int)
    (reroll_number : Nat) : Match :=
  let t := m.player_tables.get player_id
  { m with requests := m.requests ++
      [Request.rerollDice player_id t.dice reroll_number] }

/-- `_round_start`: bump the round number, reset the round-ended flags,
clear and re-create the dice (random, `initial_dice_number` each), fail to
ERROR when the creation events trigger actions, then issue the reroll
requests (reroll counts pass through `_modify_value`, which modifies
nothing in this source) and enter ROUND_ROLL_DICE. -/
def Match.roundStart (trig : Trig) (m : Match) : Match :=
  let m1 := { m with
    round_number := m.round_number + 1,
    player_tables :=
      { p0 := { m.player_tables.p0 with has_round_ended := false, dice := [] },
        p1 :=
          { m.player_tables.p1 with has_round_ended := false, dice := [] } } }
  let r0 := m1.actionCreateDice 0 m1.config.initial_dice_number none
    true false
  let r1 := r0.1.actionCreateDice 1 r0.1.config.initial_dice_number none
    true false
  let m2 := r1.1
  let triggered := triggerEvents trig m2 (r0.2 ++ r1.2)
  if triggered ≠ [] then { m2 with match_state := .ERROR }
  else
    let m3 := m2.requestRerollDice 0 m2.config.initial_dice_reroll_times
    let m4 := m3.requestRerollDice 1 m3.config.initial_dice_reroll_times
    { m4 with match_state := .ROUND_ROLL_DICE }

/-- `_round_prepare`: dispatch the ROUND_PREPARE event and push the
triggered actions as a queue frame (even when empty, as the source does). -/
def Match.roundPrepare (trig : Trig) (m : Match) : Match :=
  let ev := EventArg.roundPrepare m.current_player m.round_number
    [m.player_tables.p0.dice, m.player_tables.p1.dice]
  let actions := trig m ev
  { m with action_queues := m.action_queues ++ [actions] }

/-- `_player_action_start`: when both players have declared round end, go
to ROUND_ENDING. -/
def Match.playerActionStart (m : Match) : Match :=
  if m.player_tables.p0.has_round_ended ∧
      m.player_tables.p1.has_round_ended then
    { m with match_state := .ROUND_ENDING }
  else m

/-- `_player_action_end`: to ROUND_ENDING when both players have declared
round end, else back to PLAYER_ACTION_START. -/
def Match.playerActionEnd (m : Match) : Match :=
  if m.player_tables.p0.has_round_ended ∧
      m.player_tables.p1.has_round_ended then
    { m with match_state := .ROUND_ENDING }
  else { m with match_state := .PLAYER_ACTION_START }

/-- Result of one iteration of the `while True` loop in `step`:
`inl (m, b)` returns `b` immediately, `inr m` continues the loop. -/
def Match.tickResult (trig : Trig) (parHook : Match → Match) (m : Match) :
    Except String (Sum (Match × Bool) Match) :=
  let ge := m.isGameEnd
  if ge.1 then .ok (.inl ({ ge.2 with match_state := .ENDED }, true))
  else if m.requests ≠ [] then .ok (.inl (m, false))
  else if m.action_queues ≠ [] then
    match m.nextAction trig with
    | .error e => .error e
    | .ok m' => .ok (.inr m')
  else
    match m.match_state with
    | .STARTING =>
        .ok (.inr ({ m with
          match_state := .STARTING_CARD_SWITCH }).requestSwitchCard)
    | .STARTING_CARD_SWITCH =>
        let m1 := { m with match_state := .STARTING_CHOOSE_CHARACTOR }
        .ok (.inr ((m1.requestChooseCharactor 0).requestChooseCharactor 1))
    | .STARTING_CHOOSE_CHARACTOR =>
        .ok (.inr (Match.roundStart trig { m with
          match_state := .ROUND_START }))
    | .ROUND_ROLL_DICE =>
        .ok (.inr (Match.roundPrepare trig { m with
          match_state := .ROUND_PREPARING }))
    | .ROUND_PREPARING =>
        .ok (.inr (Match.playerActionStart { m with
          match_state := .PLAYER_ACTION_START }))
    | .PLAYER_ACTION_START =>
        .ok (.inr (parHook { m with
          match_state := .PLAYER_ACTION_REQUEST }))
    | .PLAYER_ACTION_REQUEST => .ok (.inr m.playerActionEnd)
    | .ROUND_ENDING =>
        .ok (.inr { m with match_state := .ROUND_ENDED })
    | .ROUND_ENDED =>
        .ok (.inr (Match.roundStart trig { m with
          match_state := .ROUND_START }))
    | .ENDED => .ok (.inl (m, true))
    | _ => .error "match state not implemented"

/-- The `while True` loop of `step`, with fuel.  After a continuing
iteration the source returns true when requests were generated or when
`run_continuously` is false. -/
def Match.stepGo (trig : Trig) (parHook : Match → Match) :
    Nat → Match → Bool → Except String (Match × Bool)
  | 0, _, _ => .error "step fuel exhausted"
  | f + 1, m, rc =>
      match m.tickResult trig parHook with
      | .error e => .error e
      | .ok (.inl r) => .ok r
      | .ok (.inr m') =>
          if m'.requests ≠ [] ∨ rc = false then .ok (m', true)
          else Match.stepGo trig parHook f m' rc

/-- Fuel for `step`; one million loop iterations, far beyond anything a
match performs between suspension points. -/
def stepFuel : Nat := 999999 + 1

/-- `step(run_continuously)`: the request-generation body of
PLAYER_ACTION_START (`_player_action_request`) depends on the cost model,
which is outside the provided sources, so it is the parameter `parHook`;
all theorems quantify over it. -/
def Match.step (trig : Trig) (parHook : Match → Match) (m : Match)
    (rc : Bool) : Except String (Match × Bool) :=
  Match.stepGo trig parHook stepFuel m rc

/-! ## Response handlers (`_respond_*` of match.py) -/

/-- The switch-card response (server/interaction.py is not among the
provided sources; the handler reads the selected card names and the
selected id list's length). -/
structure SwitchCardResponse where
  player_id : Int
  card_ids : List Nat
  card_names : List String
deriving DecidableEq, Repr

/-- The reroll-dice response. -/
structure RerollDiceResponse where
  player_id : Int
  reroll_dice_ids : List Nat
deriving DecidableEq, Repr

/-- The insertion-ordered name-count table built by
`_respond_switch_card` (a Python dict keyed by card name). -/
def collectCounts (names : List String) : List (String × Nat) :=
  names.foldl
    (fun acc n =>
      if acc.any (fun p => p.1 = n) then
        acc.map (fun p => if p.1 = n then (p.1, p.2 + 1) else p)
      else acc ++ [(n, 1)])
    []

/-- `hand_names.index(name, start)`: first index at or after `start`
holding `name`. -/
def indexFrom (xs : List String) (x : String) (start : Nat) : Option Nat :=
  (List.range xs.length).find? (fun i => start ≤ i ∧ xs.getD i "" = x)

/-- Find `cnt` successive occurrences of `name`, each strictly after the
previous (the `start_idx` walk of the source); `none` models the
ValueError of a missing occurrence. -/
def findNameIds (hand_names : List String) (name : String) :
    Nat → Nat → Option (List Nat)
  | 0, _ => some []
  | cnt + 1, start =>
      match indexFrom hand_names name start with
      | none => none
      | some i =>
          (findNameIds hand_names name cnt (i + 1)).map (fun r => i :: r)

/-- Resolve the whole name-count table against the hand names. -/
def collectAllIds (hand_names : List String) :
    List (String × Nat) → Option (List Nat)
  | [] => some []
  | (n, c) :: rest =>
      match findNameIds hand_names n c 0 with
      | none => none
      | some ids =>
          (collectAllIds hand_names rest).map (fun r => ids ++ r)

/-- `_respond_switch_card`: resolve the selected names to hand indices
(name-multiset match), restore those cards to the deck, draw the same
number of cards, and if nothing was triggered remove every request of the
player; there is no shuffle between restoring and drawing. -/
def Match.respondSwitchCard (trig : Trig) (m : Match)
    (resp : SwitchCardResponse) : Except String Match :=
  let hand_names :=
    (m.player_tables.get resp.player_id).hands.map (fun c => c.name)
  match collectAllIds hand_names (collectCounts resp.card_names) with
  | none => .error "selected card name not found in hand"
  | some card_hand_ids =>
      let r1 := m.actionRestoreCard resp.player_id card_hand_ids
      let r2 := r1.1.actionDrawCard resp.player_id resp.card_ids.length
      let triggered := triggerEvents trig r2.1 (r1.2 ++ r2.2)
      if triggered ≠ [] then .ok { r2.1 with match_state := .ERROR }
      else .ok { r2.1 with requests :=
        r2.1.requests.filter (fun r => r.player_id ≠ resp.player_id) }

/-- The switch-card handling as the spec section 4.4 words it: restore the
selected cards to the deck, **shuffle the deck**, draw the same number of
cards, and remove the player's requests.  Stated only to compare with the
source's `respondSwitchCard`, which performs no shuffle. -/
def Match.respondSwitchCardSpecver (trig : Trig) (m : Match)
    (resp : SwitchCardResponse) : Except String Match :=
  let hand_names :=
    (m.player_tables.get resp.player_id).hands.map (fun c => c.name)
  match collectAllIds hand_names (collectCounts resp.card_names) with
  | none => .error "selected card name not found in hand"
  | some card_hand_ids =>
      let r1 := m.actionRestoreCard resp.player_id card_hand_ids
      let t := r1.1.player_tables.get resp.player_id
      let sh := shuffleList default t.table_deck r1.1.rng
      let t' := { t with table_deck := sh.1 }
      let m1 := { r1.1 with
        player_tables := r1.1.player_tables.set resp.player_id t',
        rng := sh.2 }
      let r2 := m1.actionDrawCard resp.player_id resp.card_ids.length
      let triggered := triggerEvents trig r2.1 (r1.2 ++ r2.2)
      if triggered ≠ [] then .ok { r2.1 with match_state := .ERROR }
      else .ok { r2.1 with requests :=
        r2.1.requests.filter (fun r => r.player_id ≠ resp.player_id) }

/-- The request-list update at the end of `_respond_reroll_dice`: find the
first reroll request of the player; decrement its count when more than one
remains, otherwise drop it. -/
def updateRerollRequests (reqs : List Request) (p : Int) : List Request :=
  match reqs with
  | [] => []
  | r :: rest =>
      match r with
      | .rerollDice pid colors times =>
          if pid = p then
            if 1 < times then
              Request.rerollDice pid colors (times - 1) :: rest
            else rest
          else r :: updateRerollRequests rest p
      | _ => r :: updateRerollRequests rest p

/-- `_respond_reroll_dice`: remove the selected dice (to ERROR when that
triggers actions), create the same number of random dice (appending any
triggered actions to the bottom queue frame, or as a new frame), then
update the reroll request. -/
def Match.respondRerollDice (trig : Trig) (m : Match)
    (resp : RerollDiceResponse) : Match :=
  let r1 := m.actionRemoveDice resp.player_id resp.reroll_dice_ids
  let t1 := triggerEvents trig r1.1 r1.2
  if t1 ≠ [] then { r1.1 with match_state := .ERROR }
  else
    let r2 := r1.1.actionCreateDice resp.player_id
      resp.reroll_dice_ids.length none true false
    let t2 := triggerEvents trig r2.1 r2.2
    let m2 :=
      if t2 ≠ [] then
        match r2.1.action_queues with
        | [] => { r2.1 with action_queues := [t2] }
        | q0 :: qs => { r2.1 with action_queues := (q0 ++ t2) :: qs }
      else r2.1
    { m2 with requests := updateRerollRequests m2.requests resp.player_id }

/-! ## Observation helpers -/

/-- hp of charactor `c` of player `p`. -/
def hpAt (m : Match) (p : Int) (c : Nat) : Int :=
  ((m.player_tables.get p).charactors.getD c dfltChar).hp

/-- is_alive of charactor `c` of player `p`. -/
def aliveAt (m : Match) (p : Int) (c : Nat) : Bool :=
  ((m.player_tables.get p).charactors.getD c dfltChar).is_alive

/-- Project the state out of a non-raising action result. -/
def okState (r : Except String (Match × List EventArg)) : Option Match :=
  match r with
  | .ok p => some p.1
  | .error _ => none

/-! ## Helper lemmas -/

theorem pyIdx_lt {n : Nat} {i : Int} {k : Nat} (h : pyIdx n i = some k) :
    k < n := by
  unfold pyIdx at h
  split at h
  · rename_i hc
    injection h with h
    omega
  · split at h
    · rename_i hc
      injection h with h
      omega
    · exact absurd h (by simp)

theorem pyIdx_coe {n a : Nat} (h : a < n) : pyIdx n (a : Int) = some a := by
  unfold pyIdx
  rw [if_pos ⟨Int.natCast_nonneg a, by exact_mod_cast h⟩]
  simp

theorem pyGetD_coe {α : Type} (xs : List α) (a : Nat) (d : α)
    (h : a < xs.length) : pyGetD xs (a : Int) d = xs.getD a d := by
  unfold pyGetD
  rw [pyIdx_coe h]

theorem pySet_coe {α : Type} (xs : List α) (a : Nat) (v : α)
    (h : a < xs.length) : pySet xs (a : Int) v = xs.set a v := by
  unfold pySet
  rw [pyIdx_coe h]

theorem getD_set_self {α : Type} (xs : List α) (k : Nat) (v d : α)
    (h : k < xs.length) : (xs.set k v).getD k d = v := by
  rw [List.getD_eq_getElem?_getD, List.getElem?_set_self (by omega)]
  rfl

theorem getD_set_ne {α : Type} (xs : List α) (j k : Nat) (v d : α)
    (h : j ≠ k) : (xs.set k v).getD j d = xs.getD j d := by
  rw [List.getD_eq_getElem?_getD, List.getElem?_set,
    if_neg (fun he => h he.symm), List.getD_eq_getElem?_getD]

theorem getD_eraseIdx_lt {α : Type} (xs : List α) (i j : Nat) (d : α)
    (h : j < i) : (xs.eraseIdx i).getD j d = xs.getD j d := by
  induction xs generalizing i j with
  | nil => simp [List.eraseIdx]
  | cons x xs ih =>
      cases i with
      | zero => omega
      | succ i =>
          cases j with
          | zero => rfl
          | succ j => simpa [List.eraseIdx] using ih i j (by omega)

theorem perm_getD_cons_eraseIdx {α : Type} (xs : List α) (i : Nat) (d : α)
    (h : i < xs.length) : (xs.getD i d :: xs.eraseIdx i).Perm xs := by
  induction xs generalizing i with
  | nil => simp at h
  | cons x xs ih =>
      cases i with
      | zero => simp [List.eraseIdx]
      | succ i =>
          have hi : i < xs.length := by simpa using h
          have h1 : ((x :: xs).getD (i + 1) d :: (x :: xs).eraseIdx (i + 1)).Perm
              (x :: (xs.getD i d :: xs.eraseIdx i)) :=
            List.Perm.swap x (xs.getD i d) (xs.eraseIdx i)
          exact h1.trans ((ih i hi).cons x)

theorem PlayerPair.get_set_same (ps : PlayerPair) (p : Int)
    (t : PlayerTable) : (ps.set p t).get p = t := by
  unfold PlayerPair.get PlayerPair.set
  split <;> rename_i h <;> simp [h]

theorem PlayerPair.get_set (ps : PlayerPair) (p q : Int) (t : PlayerTable) :
    (ps.set q t).get p = if (p = 0) = (q = 0) then t else ps.get p := by
  unfold PlayerPair.get PlayerPair.set
  by_cases hq : q = 0 <;> by_cases hp : p = 0 <;> simp [hp, hq]

theorem triggerEvents_nil {trig : Trig} (h : ∀ m e, trig m e = [])
    (m : Match) (evs : List EventArg) : triggerEvents trig m evs = [] := by
  unfold triggerEvents
  have hgen : ∀ acc, List.foldl (fun acc e => acc ++ trig m e) acc evs = acc := by
    induction evs with
    | nil => intro acc; rfl
    | cons e es ih =>
        intro acc
        rw [List.foldl_cons, h, List.append_nil, ih]
  exact hgen []

theorem take_min {α : Type} (xs : List α) (n : Nat) :
    xs.take (min n xs.length) = xs.take n := by
  rcases Nat.le_total n xs.length with h | h
  · simp [Nat.min_eq_left h]
  · simp [Nat.min_eq_right h, List.take_of_length_le h]

theorem drop_min {α : Type} (xs : List α) (n : Nat) :
    xs.drop (min n xs.length) = xs.drop n := by
  rcases Nat.le_total n xs.length with h | h
  · simp [Nat.min_eq_left h]
  · simp [Nat.min_eq_right h, List.drop_eq_nil_of_le h,
      List.drop_eq_nil_of_le (le_refl xs.length)]

/-! ## Concrete fixtures for witnesses and counterexamples -/

/-- Event dispatch where no object returns any action. -/
def trig0 : Trig := fun _ _ => []

/-- A player-action-request hook that adds nothing. -/
def par0 : Match → Match := fun m => m

/-- A healthy electro charactor. -/
def fixChar : Charactor :=
  { name := "fix", element := .electro, max_hp := 10, hp := 10,
    max_charge := 3, charge := 1, element_application := [],
    is_alive := true, weapon := some 1, artifact := none, talent := none,
    status := [2] }

/-- A table with two charactors, three deck cards and two hand cards. -/
def fixTable : PlayerTable :=
  { table_deck := [⟨"d0"⟩, ⟨"d1"⟩, ⟨"d2"⟩], hands := [⟨"h0"⟩, ⟨"h1"⟩],
    dice := [.omni, .pyro], charactors := [fixChar,
      { fixChar with name := "fix2", element := .pyro }],
    active_charactor_id := 0, has_round_ended := false }

/-- A running match over two copies of `fixTable`. -/
def fixMatch : Match :=
  { config := defaultConfig, rng := 7, round_number := 1,
    current_player := 0, player_tables := ⟨fixTable, fixTable⟩,
    match_state := .PLAYER_ACTION_ACT, action_queues := [], requests := [],
    winner := -1 }

/-- A table whose hand is at the maximum hand size of the default config. -/
def overdrawTable : PlayerTable :=
  { table_deck := [⟨"top"⟩],
    hands := [⟨"c0"⟩, ⟨"c1"⟩, ⟨"c2"⟩, ⟨"c3"⟩, ⟨"c4"⟩, ⟨"c5"⟩, ⟨"c6"⟩,
      ⟨"c7"⟩, ⟨"c8"⟩, ⟨"c9"⟩],
    dice := [], charactors := [fixChar], active_charactor_id := 0,
    has_round_ended := false }

/-- A match where player 0 has a full hand and one deck card. -/
def overdrawMatch : Match :=
  { fixMatch with player_tables := ⟨overdrawTable, fixTable⟩ }

/-- A table whose dice pool is at the maximum dice number. -/
def fullDiceTable : PlayerTable :=
  { fixTable with dice := List.replicate 16 DieColor.omni }

/-- A match where player 0 has a full dice pool. -/
def fullDiceMatch : Match :=
  { fixMatch with player_tables := ⟨fullDiceTable, fixTable⟩ }

/-! ## Claim C10 -/

/-- On Int, the source's upper cap `if mx < c then mx else c` is `min`. -/
theorem capAbove_eq_min (c mx : Int) : (if mx < c then mx else c) = min c mx := by
  rcases le_or_lt c mx with h | h
  · rw [if_neg (not_lt.mpr h), min_eq_left h]
  · rw [if_pos h, min_eq_right (le_of_lt h)]

/-- The charactor-list update performed by `_action_charge`: the active
charactor's charge moves to `min (charge + delta) max_charge`. -/
theorem actionCharge_charactors (m : Match) (player_id charactor_id chg : Int)
    (a : Nat)
    (ha : (m.player_tables.get player_id).active_charactor_id = (a : Int))
    (hlen : a < (m.player_tables.get player_id).charactors.length) :
    ((m.actionCharge player_id charactor_id chg).1.player_tables.get
        player_id).charactors =
      (m.player_tables.get player_id).charactors.set a
        { (m.player_tables.get player_id).charactors.getD a dfltChar with
          charge := min
            (((m.player_tables.get player_id).charactors.getD a
              dfltChar).charge + chg)
            (((m.player_tables.get player_id).charactors.getD a
              dfltChar).max_charge) } := by
  have hget : pyGetD (m.player_tables.get player_id).charactors
      (m.player_tables.get player_id).active_charactor_id dfltChar =
      (m.player_tables.get player_id).charactors.getD a dfltChar := by
    rw [ha, pyGetD_coe _ _ _ hlen]
  have hset : ∀ v, pySet (m.player_tables.get player_id).charactors
      (m.player_tables.get player_id).active_charactor_id v =
      (m.player_tables.get player_id).charactors.set a v := by
    intro v
    rw [ha, pySet_coe _ _ _ hlen]
  simp only [Match.actionCharge, PlayerPair.get_set_same, hget, hset,
    capAbove_eq_min]

/-- C10: a ChargeAction applies its delta to the acting player's currently
active charactor, ignoring the action's charactor_id field entirely; the
resulting charge is capped above at that charactor's max_charge but is
not clamped below at 0. -/
theorem chargeOnActiveCappedAboveOnly (m : Match)
    (player_id charactor_id charactor_id' chg : Int) (a : Nat)
    (ha : (m.player_tables.get player_id).active_charactor_id = (a : Int))
    (hlen : a < (m.player_tables.get player_id).charactors.length) :
    ((m.actionCharge player_id charactor_id chg).1 =
      (m.actionCharge player_id charactor_id' chg).1) ∧
    (((m.actionCharge player_id charactor_id chg).1.player_tables.get
        player_id).charactors =
      (m.player_tables.get player_id).charactors.set a
        { (m.player_tables.get player_id).charactors.getD a dfltChar with
          charge := min
            (((m.player_tables.get player_id).charactors.getD a
              dfltChar).charge + chg)
            (((m.player_tables.get player_id).charactors.getD a
              dfltChar).max_charge) }) ∧
    (((m.player_tables.get player_id).charactors.getD a dfltChar).charge +
        chg < 0 →
      (((m.actionCharge player_id charactor_id chg).1.player_tables.get
          player_id).charactors.getD a dfltChar).charge < 0) := by
  have h2 := actionCharge_charactors m player_id charactor_id chg a ha hlen
  refine ⟨rfl, h2, fun hneg => ?_⟩
  rw [h2, getD_set_self _ _ _ _ hlen]
  exact lt_of_le_of_lt (min_le_left _ _) hneg

/-- Witness for C10 at a concrete input: the charactor_id field (5 versus
9) does not matter, and a -3 delta on charge 1 yields -2. -/
theorem chargeOnActiveCappedAboveOnly_witness :
    ((fixMatch.actionCharge 0 5 (-3)).1 =
      (fixMatch.actionCharge 0 9 (-3)).1) ∧
    (((fixMatch.actionCharge 0 5 (-3)).1.player_tables.get
        0).charactors.getD 0 dfltChar).charge = -2 := by
  have h := chargeOnActiveCappedAboveOnly fixMatch 0 5 9 (-3) 0 (by decide)
    (by decide)
  refine ⟨h.1, ?_⟩
  rw [h.2.1]
  decide

/-! ## Claim C9 -/

/-- C9: a CharactorDefeatedAction keeps the slot (list length and the other
slots unchanged), clears is_alive, weapon, artifact, talent, status and
element application, and resets active_charactor_id to -1 exactly when the
defeated charactor was active; deck, hand and dice are untouched. -/
theorem charactorDefeatedClearsSlot (m : Match) (player_id : Int) (cid : Nat)
    (hlen : cid < (m.player_tables.get player_id).charactors.length) :
    (((m.actionCharactorDefeated player_id (cid : Int)).1.player_tables.get
        player_id).charactors.length =
      (m.player_tables.get player_id).charactors.length) ∧
    (((m.actionCharactorDefeated player_id (cid : Int)).1.player_tables.get
        player_id).charactors.getD cid dfltChar =
      { (m.player_tables.get player_id).charactors.getD cid dfltChar with
        weapon := none, artifact := none, talent := none, status := [],
        element_application := [], is_alive := false }) ∧
    (∀ j : Nat, j ≠ cid →
      ((m.actionCharactorDefeated player_id
          (cid : Int)).1.player_tables.get player_id).charactors.getD j
        dfltChar =
      (m.player_tables.get player_id).charactors.getD j dfltChar) ∧
    (((m.actionCharactorDefeated player_id (cid : Int)).1.player_tables.get
        player_id).active_charactor_id =
      (if (m.player_tables.get player_id).active_charactor_id = (cid : Int)
        then -1 else (m.player_tables.get player_id).active_charactor_id)) ∧
    (((m.actionCharactorDefeated player_id (cid : Int)).1.player_tables.get
          player_id).table_deck =
        (m.player_tables.get player_id).table_deck ∧
      ((m.actionCharactorDefeated player_id (cid : Int)).1.player_tables.get
          player_id).hands = (m.player_tables.get player_id).hands ∧
      ((m.actionCharactorDefeated player_id (cid : Int)).1.player_tables.get
          player_id).dice = (m.player_tables.get player_id).dice) := by
  have hget : pyGetD (m.player_tables.get player_id).charactors
      ((cid : Nat) : Int) dfltChar =
      (m.player_tables.get player_id).charactors.getD cid dfltChar := by
    rw [pyGetD_coe _ _ _ hlen]
  have hset : ∀ v, pySet (m.player_tables.get player_id).charactors
      ((cid : Nat) : Int) v =
      (m.player_tables.get player_id).charactors.set cid v := by
    intro v
    rw [pySet_coe _ _ _ hlen]
  simp only [Match.actionCharactorDefeated, PlayerPair.get_set_same, hget,
    hset]
  by_cases hact :
      (m.player_tables.get player_id).active_charactor_id = (cid : Int)
  · rw [if_pos hact]
    refine ⟨List.length_set _ _ _, getD_set_self _ _ _ _ hlen,
      fun j hj => getD_set_ne _ _ _ _ _ hj, ?_, rfl, rfl, rfl⟩
    rw [if_pos hact]
  · rw [if_neg hact]
    refine ⟨List.length_set _ _ _, getD_set_self _ _ _ _ hlen,
      fun j hj => getD_set_ne _ _ _ _ _ hj, ?_, rfl, rfl, rfl⟩
    rw [if_neg hact]

/-- Witness for C9: defeating the active charactor 0 of player 0 in the
fixture match. -/
theorem charactorDefeatedClearsSlot_witness :
    (((fixMatch.actionCharactorDefeated 0 ((0 : Nat) : Int)
        ).1.player_tables.get 0).charactors.getD 0 dfltChar).is_alive =
      false ∧
    ((fixMatch.actionCharactorDefeated 0 ((0 : Nat) : Int)
        ).1.player_tables.get 0).active_charactor_id = -1 := by
  have h := charactorDefeatedClearsSlot fixMatch 0 0 (by decide)
  refine ⟨?_, ?_⟩
  · rw [h.2.1]
  · rw [h.2.2.2.1]
    decide

/-! ## Claim C3 -/

/-- `_action_create_dice` never changes the current player. -/
theorem actionCreateDice_current (m : Match) (p : Int) (n : Nat)
    (c : Option DieColor) (r d : Bool) :
    (m.actionCreateDice p n c r d).1.current_player = m.current_player := by
  unfold Match.actionCreateDice
  repeat' split
  all_goals rfl

/-- C3: a CombatActionAction of player p passes the turn to 1-p unless the
other player has declared round end while p has not (then p keeps the
turn); `_round_start` never touches current_player, so after mutual round
end the player who declared first holds the turn at the next round start. -/
theorem combatActionTurnPassing :
    (∀ (m : Match) (p : Int),
      (m.actionCombatAction p).1.current_player =
        (if (m.player_tables.get (1 - p)).has_round_ended ∧
            ¬ (m.player_tables.get p).has_round_ended then m.current_player
          else 1 - p) ∧
      (m.actionCombatAction p).1.player_tables = m.player_tables) ∧
    (∀ (trig : Trig) (m : Match),
      (Match.roundStart trig m).current_player = m.current_player) ∧
    (∀ m : Match,
      m.player_tables.p0.has_round_ended = false →
      m.player_tables.p1.has_round_ended = false →
      (let s1 := (m.actionDeclareRoundEnd 0).1
       let s2 := (s1.actionCombatAction 0).1
       let s3 := (s2.actionCombatAction 1).1
       let s4 := (s3.actionDeclareRoundEnd 1).1
       let s5 := (s4.actionCombatAction 1).1
       s5.current_player = 0)) := by
  refine ⟨fun m p => ⟨?_, ?_⟩, fun trig m => ?_, fun m he0 he1 => ?_⟩
  · simp only [Match.actionCombatAction]
    split <;> rfl
  · simp only [Match.actionCombatAction]
    split <;> rfl
  · unfold Match.roundStart
    simp only [Match.requestRerollDice]
    split <;>
      simp only [actionCreateDice_current]
  · simp only [Match.actionDeclareRoundEnd, Match.actionCombatAction,
      PlayerPair.get, PlayerPair.set]
    norm_num

/-- Witness for C3: in the fixture match (nobody has declared round end) a
combat action of player 0 passes the turn, and the declare-end sequence
0-then-1 leaves player 0 as current player. -/
theorem combatActionTurnPassing_witness :
    (fixMatch.actionCombatAction 0).1.current_player = 1 ∧
    (let s1 := (fixMatch.actionDeclareRoundEnd 0).1
     let s2 := (s1.actionCombatAction 0).1
     let s3 := (s2.actionCombatAction 1).1
     let s4 := (s3.actionDeclareRoundEnd 1).1
     let s5 := (s4.actionCombatAction 1).1
     s5.current_player = 0) := by
  refine ⟨?_, combatActionTurnPassing.2.2 fixMatch (by decide) (by decide)⟩
  rw [(combatActionTurnPassing.1 fixMatch 0).1]
  decide

/-! ## Claim C1 -/

/-- Updating one charactor without touching is_alive keeps the pointwise
is_alive view of the list. -/
theorem pySet_getD_alive (chars : List Charactor) (i : Int) (ch' : Charactor)
    (hg : ch'.is_alive = (pyGetD chars i dfltChar).is_alive) :
    ∀ c : Nat, ((pySet chars i ch').getD c dfltChar).is_alive =
      (chars.getD c dfltChar).is_alive := by
  intro c
  unfold pySet
  unfold pyGetD at hg
  cases hidx : pyIdx chars.length i with
  | none => rfl
  | some k =>
      rw [hidx] at hg
      by_cases hc : c = k
      · subst hc
        rw [getD_set_self _ _ _ _ (pyIdx_lt hidx), hg]
      · rw [getD_set_ne _ _ _ _ _ hc]

/-- Updating one charactor to a nonnegative hp keeps all hp nonnegative. -/
theorem pySet_getD_hp_nonneg (chars : List Charactor) (i : Int)
    (ch' : Charactor) (hch : 0 ≤ ch'.hp) :
    ∀ c : Nat, 0 ≤ (chars.getD c dfltChar).hp →
      0 ≤ ((pySet chars i ch').getD c dfltChar).hp := by
  intro c hc0
  unfold pySet
  cases hidx : pyIdx chars.length i with
  | none => exact hc0
  | some k =>
      by_cases hc : c = k
      · subst hc
        rw [getD_set_self _ _ _ _ (pyIdx_lt hidx)]
        exact hch
      · rw [getD_set_ne _ _ _ _ _ hc]
        exact hc0

/-- When two player indices select the same side of the pair, the lookups
agree. -/
theorem PlayerPair.get_congr (ps : PlayerPair) (p q : Int)
    (h : (p = 0) = (q = 0)) : ps.get p = ps.get q := by
  simp only [PlayerPair.get, h]

/-- Replacing one player table whose charactors keep their is_alive values
keeps the pointwise aliveAt view of the match. -/
theorem aliveAt_set_table (m : Match) (q : Int) (t' : PlayerTable)
    (hsame : ∀ c : Nat, (t'.charactors.getD c dfltChar).is_alive =
      (((m.player_tables.get q)).charactors.getD c dfltChar).is_alive) :
    ∀ (p : Int) (c : Nat),
      aliveAt { m with player_tables := m.player_tables.set q t' } p c =
        aliveAt m p c := by
  intro p c
  unfold aliveAt
  simp only
  rw [PlayerPair.get_set]
  split
  · rename_i hpq
    rw [PlayerPair.get_congr m.player_tables p q hpq]
    exact hsame c
  · rfl

/-- Replacing one player table by one with pointwise-nonnegative hp keeps
all hp nonnegative. -/
theorem hpAt_set_table_nonneg (m : Match) (q : Int) (t' : PlayerTable)
    (hsame : ∀ c : Nat,
      0 ≤ (((m.player_tables.get q)).charactors.getD c dfltChar).hp →
      0 ≤ (t'.charactors.getD c dfltChar).hp)
    (h0 : ∀ (p : Int) (c : Nat), 0 ≤ hpAt m p c) :
    ∀ (p : Int) (c : Nat),
      0 ≤ hpAt { m with player_tables := m.player_tables.set q t' } p c := by
  intro p c
  unfold hpAt
  simp only
  rw [PlayerPair.get_set]
  split
  · rename_i hpq
    exact hsame c (by rw [← PlayerPair.get_congr m.player_tables p q hpq]; exact h0 p c)
  · exact h0 p c

/-- The below-zero clamp of the damage pipeline is nonnegative. -/
theorem ite_neg_clamp_nonneg (x : Int) : 0 ≤ if x < 0 then 0 else x := by
  split <;> omega

/-- The damage loop never touches the action queues, the requests or the
random state, never changes any charactor's is_alive, and preserves
nonnegativity of every hp (it clamps the struck hp below at 0). -/
theorem makeDamageLoop_inv (tid : Int) (act : Action) (f : Nat) :
    ∀ (m : Match) (dl : List DamageValue) (nc : Int)
      (infos : List ReceiveDamageInfo) (m' : Match) (nc' : Int)
      (infos' : List ReceiveDamageInfo),
      Match.makeDamageLoop tid act f m dl nc infos = .ok (m', nc', infos') →
      m'.action_queues = m.action_queues ∧
      m'.requests = m.requests ∧
      m'.rng = m.rng ∧
      (∀ (p : Int) (c : Nat), aliveAt m' p c = aliveAt m p c) ∧
      ((∀ (p : Int) (c : Nat), 0 ≤ hpAt m p c) →
        ∀ (p : Int) (c : Nat), 0 ≤ hpAt m' p c) := by
  induction f with
  | zero =>
      intro m dl nc infos m' nc' infos' h
      cases dl with
      | nil =>
          simp only [Match.makeDamageLoop] at h
          simp only [Except.ok.injEq, Prod.mk.injEq] at h
          obtain ⟨rfl, rfl, rfl⟩ := h
          exact ⟨rfl, rfl, rfl, fun p c => rfl, fun h0 => h0⟩
      | cons dv rest =>
          simp only [Match.makeDamageLoop] at h
          exact absurd h (by simp)
  | succ f ih =>
      intro m dl nc infos m' nc' infos' h
      cases dl with
      | nil =>
          simp only [Match.makeDamageLoop] at h
          simp only [Except.ok.injEq, Prod.mk.injEq] at h
          obtain ⟨rfl, rfl, rfl⟩ := h
          exact ⟨rfl, rfl, rfl, fun p c => rfl, fun h0 => h0⟩
      | cons dv rest =>
          simp only [Match.makeDamageLoop] at h
          split at h
          · exact absurd h (by simp)
          · rename_i hcond
            have hrec := ih _ _ _ _ _ _ _ h
            refine ⟨hrec.1, hrec.2.1, hrec.2.2.1, ?_, ?_⟩
            · intro p c
              rw [hrec.2.2.2.1 p c]
              exact aliveAt_set_table m dv.target_player_id _
                (pySet_getD_alive _ _ _ (by rfl)) p c
            · intro h0
              refine hrec.2.2.2.2 ?_
              exact hpAt_set_table_nonneg m dv.target_player_id _
                (pySet_getD_hp_nonneg _ _ _ (by exact ite_neg_clamp_nonneg _)) h0

/-- hp is untouched by a pure table replacement that keeps charactors. -/
theorem hpAt_set_table_eq (m : Match) (q : Int) (t' : PlayerTable)
    (hsame : ∀ c : Nat, (t'.charactors.getD c dfltChar).hp =
      (((m.player_tables.get q)).charactors.getD c dfltChar).hp) :
    ∀ (p : Int) (c : Nat),
      hpAt { m with player_tables := m.player_tables.set q t' } p c =
        hpAt m p c := by
  intro p c
  unfold hpAt
  simp only
  rw [PlayerPair.get_set]
  split
  · rename_i hpq
    rw [PlayerPair.get_congr m.player_tables p q hpq]
    exact hsame c
  · rfl

/-- `_action_switch_charactor` changes no charactor's is_alive. -/
theorem aliveAt_actionSwitchCharactor (m : Match) (q cid : Int) :
    ∀ (p : Int) (c : Nat),
      aliveAt (m.actionSwitchCharactor q cid).1 p c = aliveAt m p c := by
  intro p c
  simp only [Match.actionSwitchCharactor]
  exact aliveAt_set_table m q _ (fun c => by rfl) p c

/-- `_action_switch_charactor` changes no charactor's hp. -/
theorem hpAt_actionSwitchCharactor (m : Match) (q cid : Int) :
    ∀ (p : Int) (c : Nat),
      hpAt (m.actionSwitchCharactor q cid).1 p c = hpAt m p c := by
  intro p c
  simp only [Match.actionSwitchCharactor]
  exact hpAt_set_table_eq m q _ (fun c => by rfl) p c

/-- C1 (amended): after every MakeDamageAction each struck hp is clamped
below at 0 (so all hp stay nonnegative) but is **not** capped at max_hp,
and is_alive is left unchanged by the damage pipeline (defeat is only
registered by a separate CharactorDefeatedAction, so `is_alive ⇔ hp > 0`
can fail after damage); after every ChargeAction the active charactor's
charge becomes `min (charge + delta) max_charge` — capped above at
max_charge but not clamped below at 0. -/
theorem damageChargeClampBehavior :
    (∀ (m : Match) (pid : Int) (dvl : List DamageValue) (tid cc : Int)
        (m' : Match) (evs : List EventArg),
      m.actionMakeDamage pid dvl tid cc = .ok (m', evs) →
      (∀ (p : Int) (c : Nat), aliveAt m' p c = aliveAt m p c) ∧
      ((∀ (p : Int) (c : Nat), 0 ≤ hpAt m p c) →
        ∀ (p : Int) (c : Nat), 0 ≤ hpAt m' p c)) ∧
    (∀ (m : Match) (pid cid chg : Int) (a : Nat),
      (m.player_tables.get pid).active_charactor_id = (a : Int) →
      a < (m.player_tables.get pid).charactors.length →
      (((m.actionCharge pid cid chg).1.player_tables.get
          pid).charactors.getD a dfltChar).charge =
        min
          (((m.player_tables.get pid).charactors.getD a dfltChar).charge +
            chg)
          (((m.player_tables.get pid).charactors.getD a
            dfltChar).max_charge) ∧
      (((m.actionCharge pid cid chg).1.player_tables.get
          pid).charactors.getD a dfltChar).charge ≤
        ((m.player_tables.get pid).charactors.getD a dfltChar).max_charge) := by
  constructor
  · intro m pid dvl tid cc m' evs h
    simp only [Match.actionMakeDamage] at h
    split at h
    · exact absurd h (by simp)
    · rename_i m1 nc infos heq
      have hinv := makeDamageLoop_inv tid (Action.makeDamage pid dvl tid cc)
        (dmgFuel m dvl) m dvl cc [] m1 nc infos heq
      split at h
      · simp only [Except.ok.injEq, Prod.mk.injEq] at h
        obtain ⟨rfl, rfl⟩ := h
        constructor
        · intro p c
          rw [aliveAt_actionSwitchCharactor m1 tid nc p c]
          exact hinv.2.2.2.1 p c
        · intro h0 p c
          rw [hpAt_actionSwitchCharactor m1 tid nc p c]
          exact hinv.2.2.2.2 h0 p c
      · simp only [Except.ok.injEq, Prod.mk.injEq] at h
        obtain ⟨rfl, rfl⟩ := h
        exact ⟨hinv.2.2.2.1, hinv.2.2.2.2⟩
  · intro m pid cid chg a ha hlen
    have h2 := actionCharge_charactors m pid cid chg a ha hlen
    rw [h2, getD_set_self _ _ _ _ hlen]
    exact ⟨rfl, min_le_right _ _⟩

/-- Every charactor slot of the fixture table has nonnegative hp. -/
theorem fixTable_hp_nonneg (c : Nat) :
    0 ≤ (fixTable.charactors.getD c dfltChar).hp := by
  rcases c with _ | _ | c <;> simp [fixTable, fixChar, dfltChar, List.getD]

/-- Every charactor slot of the fixture match has nonnegative hp. -/
theorem fixMatch_hp_nonneg (p : Int) (c : Nat) : 0 ≤ hpAt fixMatch p c := by
  unfold hpAt fixMatch PlayerPair.get
  split <;> exact fixTable_hp_nonneg c

/-- A heal: -1 damage of heal type aimed at charactor 0 of player 0. -/
def healDv : DamageValue :=
  { target_player_id := 0, target_charactor_id := 0, damage := -1,
    damage_type := .heal }

/-- Exactly-lethal physical damage aimed at charactor 0 of player 0. -/
def killDv : DamageValue :=
  { target_player_id := 0, target_charactor_id := 0, damage := 10,
    damage_type := .physical }

/-- C1 counterexample: in the fixture match (hp = max_hp = 10, charge = 1),
a MakeDamageAction healing 1 leaves hp = 11 > max_hp; an exactly-lethal
MakeDamageAction leaves hp = 0 with is_alive still true (so
`is_alive ⇔ hp > 0` fails); and a ChargeAction of -3 leaves charge = -2
< 0.  Each conjunct contradicts one bound of the claim. -/
theorem hpChargeInvariantViolations :
    ((okState (fixMatch.actionMakeDamage 1 [healDv] 0 0)).map
        (fun mm => hpAt mm 0 0) = some 11 ∧
      fixChar.max_hp = 10) ∧
    ((okState (fixMatch.actionMakeDamage 1 [killDv] 0 0)).map
        (fun mm => (hpAt mm 0 0, aliveAt mm 0 0)) = some (0, true)) ∧
    (((fixMatch.actionCharge 0 0 (-3)).1.player_tables.get
        0).charactors.getD 0 dfltChar).charge = -2 := by
  decide

/-- Witness for the amended C1 at concrete inputs: lethal damage keeps
is_alive unchanged and hp nonnegative, and a +2 charge caps at
max_charge. -/
theorem damageChargeClampBehavior_witness :
    ((okState (fixMatch.actionMakeDamage 1 [killDv] 0 0)).map
        (fun mm => aliveAt mm 0 0) = some (aliveAt fixMatch 0 0)) ∧
    ((okState (fixMatch.actionMakeDamage 1 [killDv] 0 0)).map
        (fun mm => decide (0 ≤ hpAt mm 0 0)) = some true) ∧
    (((fixMatch.actionCharge 0 0 2).1.player_tables.get 0).charactors.getD
        0 dfltChar).charge = min (1 + 2) 3 := by
  have hsome : (okState (fixMatch.actionMakeDamage 1 [killDv] 0 0)).isSome
      = true := by decide
  refine ⟨?_, ?_, ?_⟩
  · cases hcase : fixMatch.actionMakeDamage 1 [killDv] 0 0 with
    | error e =>
        rw [hcase] at hsome
        exact absurd hsome (by simp [okState])
    | ok pr =>
        have h := (damageChargeClampBehavior.1 fixMatch 1 [killDv] 0 0 pr.1
          pr.2 (by rw [hcase])).1 0 0
        simp [okState, hcase, h]
  · cases hcase : fixMatch.actionMakeDamage 1 [killDv] 0 0 with
    | error e =>
        rw [hcase] at hsome
        exact absurd hsome (by simp [okState])
    | ok pr =>
        have h := (damageChargeClampBehavior.1 fixMatch 1 [killDv] 0 0 pr.1
          pr.2 (by rw [hcase])).2 fixMatch_hp_nonneg 0 0
        simp [okState, hcase, h]
  · have h := (damageChargeClampBehavior.2 fixMatch 0 0 2 0 (by decide)
      (by decide)).1
    rw [h]
    decide

/-! ## Claim C4 -/

/-- No action function modifies the action-queue stack: acting an action
can only change tables, requests, random state or the match state. -/
theorem act_preserves_queues (m : Match) (a : Action) (m2 : Match)
    (evs : List EventArg) (h : m.act a = .ok (m2, evs)) :
    m2.action_queues = m.action_queues := by
  cases a with
  | makeDamage p dvl tid cc =>
      simp only [Match.act, Match.actionMakeDamage] at h
      split at h
      · exact absurd h (by simp)
      · rename_i m1 nc infos heq
        have hinv := makeDamageLoop_inv tid (Action.makeDamage p dvl tid cc)
          (dmgFuel m dvl) m dvl cc [] m1 nc infos heq
        split at h
        · simp only [Except.ok.injEq, Prod.mk.injEq] at h
          obtain ⟨rfl, -⟩ := h
          simpa only [Match.actionSwitchCharactor] using hinv.1
        · simp only [Except.ok.injEq, Prod.mk.injEq] at h
          obtain ⟨rfl, -⟩ := h
          exact hinv.1
  | removeCard p cid pos rt =>
      cases pos <;>
        (simp only [Match.act, Match.actionRemoveCard,
          Except.ok.injEq, Prod.mk.injEq] at h
         obtain ⟨rfl, -⟩ := h
         rfl)
  | createDice p n c r d =>
      simp only [Match.act, Match.actionCreateDice] at h
      repeat' split at h
      all_goals
        simp only [Except.ok.injEq, Prod.mk.injEq] at h
      all_goals
        obtain ⟨rfl, -⟩ := h
      all_goals rfl
  | combatAction p =>
      simp only [Match.act, Match.actionCombatAction,
        Except.ok.injEq, Prod.mk.injEq] at h
      obtain ⟨rfl, -⟩ := h
      split <;> rfl
  | empty =>
      simp only [Match.act, Except.ok.injEq, Prod.mk.injEq] at h
      obtain ⟨rfl, -⟩ := h
      rfl
  | drawCard p n =>
      simp only [Match.act, Match.actionDrawCard,
        Except.ok.injEq, Prod.mk.injEq] at h
      obtain ⟨rfl, -⟩ := h
      rfl
  | restoreCard p ids =>
      simp only [Match.act, Match.actionRestoreCard,
        Except.ok.injEq, Prod.mk.injEq] at h
      obtain ⟨rfl, -⟩ := h
      rfl
  | chooseCharactor p cid =>
      simp only [Match.act, Match.actionChooseCharactor,
        Except.ok.injEq, Prod.mk.injEq] at h
      obtain ⟨rfl, -⟩ := h
      rfl
  | removeDice p ids =>
      simp only [Match.act, Match.actionRemoveDice,
        Except.ok.injEq, Prod.mk.injEq] at h
      obtain ⟨rfl, -⟩ := h
      rfl
  | declareRoundEnd p =>
      simp only [Match.act, Match.actionDeclareRoundEnd,
        Except.ok.injEq, Prod.mk.injEq] at h
      obtain ⟨rfl, -⟩ := h
      rfl
  | switchCharactor p cid =>
      simp only [Match.act, Match.actionSwitchCharactor,
        Except.ok.injEq, Prod.mk.injEq] at h
      obtain ⟨rfl, -⟩ := h
      rfl
  | charge p cid chg =>
      simp only [Match.act, Match.actionCharge,
        Except.ok.injEq, Prod.mk.injEq] at h
      obtain ⟨rfl, -⟩ := h
      rfl
  | skillEnd p cid =>
      simp only [Match.act, Match.actionSkillEnd,
        Except.ok.injEq, Prod.mk.injEq] at h
      obtain ⟨rfl, -⟩ := h
      rfl
  | charactorDefeated p cid =>
      simp only [Match.act, Match.actionCharactorDefeated,
        Except.ok.injEq, Prod.mk.injEq] at h
      obtain ⟨rfl, -⟩ := h
      rfl
  | generateChooseCharactorRequest p =>
      simp only [Match.act, Match.requestChooseCharactorAction,
        Except.ok.injEq, Prod.mk.injEq] at h
      obtain ⟨rfl, -⟩ := h
      rfl

/-- C4: one call of `_next_action` first drops trailing empty frames, pops
the first action of the top-most non-empty frame, acts it (which leaves
the queue stack alone), and pushes the actions triggered by its events as
a single new top frame exactly when there are any; all frames beneath the
top frame stay unmodified. -/
theorem queueDiscipline (trig : Trig) (m m2 : Match) (evs : List EventArg)
    (front : List (List Action)) (a : Action) (rest : List Action)
    (hq : dropTrailEmpty m.action_queues = front ++ [a :: rest])
    (hact : Match.act { m with action_queues := front ++ [rest] } a =
      .ok (m2, evs)) :
    m2.action_queues = front ++ [rest] ∧
    m.nextAction trig =
      .ok (if triggerEvents trig m2 evs = [] then m2
        else { m2 with action_queues :=
          (front ++ [rest]) ++ [triggerEvents trig m2 evs] }) := by
  have hq2 : m2.action_queues = front ++ [rest] :=
    act_preserves_queues _ _ _ _ hact
  refine ⟨hq2, ?_⟩
  simp only [Match.nextAction, hq, List.getLast?_concat, List.dropLast_concat,
    hact]
  split
  · rfl
  · rw [hq2]

/-- A match with an action in the bottom frame under a trailing empty
frame. -/
def c4Match : Match :=
  { fixMatch with action_queues := [[Action.declareRoundEnd 0], []] }

/-- The state after the C4 witness tick: empty frame popped, the action
performed, no new frame pushed. -/
def c4After : Match :=
  { c4Match with
    action_queues := [[]],
    player_tables := ⟨{ fixTable with has_round_ended := true }, fixTable⟩ }

/-- Witness for C4: the tick pops the empty frame lazily, performs the
declare-round-end action and pushes no new frame (nothing triggers). -/
theorem queueDiscipline_witness :
    c4Match.nextAction trig0 = .ok c4After := by
  have h := queueDiscipline trig0 c4Match c4After
    [EventArg.declareRoundEnd (Action.declareRoundEnd 0)]
    [] (Action.declareRoundEnd 0) [] (by decide) (by decide)
  rw [h.2]
  decide

/-! ## Claim C7 -/

/-- A match in the ERROR state with living charactors on both sides, no
outstanding requests and no queued actions. -/
def errMatch : Match := { fixMatch with match_state := .ERROR }

/-- `errMatch` with one outstanding request. -/
def errMatchReq : Match :=
  { errMatch with requests := [Request.declareRoundEnd 0] }

/-- C7 counterexample: in the ERROR state with no requests and no queued
actions, `step` raises NotImplementedError (the error result) instead of
being a no-op that returns false with the state unchanged. -/
theorem errorStateStepRaises :
    Match.step trig0 par0 errMatch true =
      .error "match state not implemented" ∧
    ¬ ∃ b : Bool, Match.step trig0 par0 errMatch true = .ok (errMatch, b) := by
  have h : Match.step trig0 par0 errMatch true =
      .error "match state not implemented" := by decide
  refine ⟨h, ?_⟩
  intro hex
  obtain ⟨b, hb⟩ := hex
  rw [h] at hb
  exact Except.noConfusion hb

/-- One unfolding of the step loop. -/
theorem stepGo_succ (trig : Trig) (parHook : Match → Match) (f : Nat)
    (m : Match) (rc : Bool) :
    Match.stepGo trig parHook (f + 1) m rc =
      match m.tickResult trig parHook with
      | .error e => .error e
      | .ok (.inl r) => .ok r
      | .ok (.inr m') =>
          if m'.requests ≠ [] ∨ rc = false then .ok (m', true)
          else Match.stepGo trig parHook f m' rc := rfl

/-- C7 (amended): once the match state is ERROR (and no end condition
holds), a step with outstanding requests returns false and leaves the
match unchanged, but a step with no outstanding requests and no queued
actions raises NotImplementedError — the ERROR state has no transition in
the step dispatch — rather than being a no-op returning false. -/
theorem errorStateStepBehavior (trig : Trig) (parHook : Match → Match)
    (m : Match) (rc : Bool)
    (herr : m.match_state = MatchState.ERROR)
    (ha0 : m.player_tables.p0.charactors.all (fun c => !c.is_alive) = false)
    (ha1 : m.player_tables.p1.charactors.all (fun c => !c.is_alive) = false) :
    (m.requests ≠ [] → Match.step trig parHook m rc = .ok (m, false)) ∧
    (m.requests = [] → m.action_queues = [] →
      Match.step trig parHook m rc =
        .error "match state not implemented") := by
  have htick0 : m.isGameEnd = (false, m) := by
    unfold Match.isGameEnd
    rw [if_neg (by simp [ha0]), if_neg (by simp [ha1])]
  constructor
  · intro hreq
    have h1 : m.tickResult trig parHook = .ok (.inl (m, false)) := by
      simp only [Match.tickResult, htick0, Bool.false_eq_true, if_false]
      rw [if_pos hreq]
    unfold Match.step
    rw [show stepFuel = 999999 + 1 from rfl, stepGo_succ, h1]
  · intro hreq hqueue
    have h1 : m.tickResult trig parHook =
        .error "match state not implemented" := by
      simp only [Match.tickResult, htick0, Bool.false_eq_true, if_false]
      rw [if_neg (by simp [hreq]), if_neg (by simp [hqueue]), herr]
    unfold Match.step
    rw [show stepFuel = 999999 + 1 from rfl, stepGo_succ, h1]

/-- Witness for the amended C7 at concrete inputs. -/
theorem errorStateStepBehavior_witness :
    Match.step trig0 par0 errMatchReq true = .ok (errMatchReq, false) ∧
    Match.step trig0 par0 errMatch true =
      .error "match state not implemented" := by
  refine ⟨(errorStateStepBehavior trig0 par0 errMatchReq true (by decide)
      (by decide) (by decide)).1 (by decide),
    (errorStateStepBehavior trig0 par0 errMatch true (by decide) (by decide)
      (by decide)).2 rfl rfl⟩

/-! ## Claim C5 -/

/-- The index returned by `next_charactor_id` is never the active index
itself: candidates run from active+1 forward, wrapping, and stop before
coming back around. -/
theorem next_charactor_ne_active (t : PlayerTable) (a k : Nat)
    (ha : t.active_charactor_id = (a : Int))
    (hlen : a < t.charactors.length)
    (h : t.next_charactor_id = some k) : k ≠ a := by
  unfold PlayerTable.next_charactor_id at h
  have hk := List.mem_of_find?_eq_some h
  rw [ha] at hk
  simp only [Int.toNat_natCast, List.mem_map, List.mem_range] at hk
  obtain ⟨j, hj, hjk⟩ := hk
  intro hka
  subst hka
  have hq := Nat.div_add_mod (k + 1 + j) t.charactors.length
  rw [hjk] at hq
  have hnq : t.charactors.length * ((k + 1 + j) / t.charactors.length) =
      1 + j := by omega
  rcases Nat.eq_zero_or_pos ((k + 1 + j) / t.charactors.length) with hz | hp
  · rw [hz, Nat.mul_zero] at hnq
    omega
  · have hge : t.charactors.length ≤
        t.charactors.length * ((k + 1 + j) / t.charactors.length) :=
      Nat.le_mul_of_pos_right _ hp
    omega

/-- C5: (1) a popped damage value that triggers the Overloaded reaction on
the target player's active charactor sets the pending charactor change to
the index returned by `next_charactor_id` (the next living charactor,
skipping defeated, wrapping forward) for the remainder of the loop; (2)
that index always differs from the active index; (3) after the damage
list drains, whenever the pending index differs from the target player's
active charactor the switch to it is performed — the new active index is
the pending one — and its switch event is emitted last. -/
theorem overloadedForcesSwitch :
    (∀ (tid : Int) (act : Action) (f : Nat) (m : Match) (dv : DamageValue)
        (rest : List DamageValue) (nc : Int)
        (infos : List ReceiveDamageInfo) (a k : Nat),
      (m.player_tables.get tid).active_charactor_id = (a : Int) →
      a < (m.player_tables.get tid).charactors.length →
      dv.target_player_id = tid →
      dv.target_charactor_id = (a : Int) →
      (checkElementalReaction (damageTypeToElement dv.damage_type)
        (((m.player_tables.get tid).charactors.getD a
          dfltChar).element_application)).1 = ReactionType.overloaded →
      (m.player_tables.get tid).next_charactor_id = some k →
      ∃ m1 rest1 infos1,
        Match.makeDamageLoop tid act (f + 1) m (dv :: rest) nc infos =
          Match.makeDamageLoop tid act f m1 rest1 (k : Int) infos1) ∧
    (∀ (t : PlayerTable) (a k : Nat), t.active_charactor_id = (a : Int) →
      a < t.charactors.length → t.next_charactor_id = some k → k ≠ a) ∧
    (∀ (m : Match) (pid : Int) (dvl : List DamageValue) (tid cc : Int)
        (m1 : Match) (nc : Int) (infos : List ReceiveDamageInfo),
      Match.makeDamageLoop tid (Action.makeDamage pid dvl tid cc)
          (dmgFuel m dvl) m dvl cc [] = .ok (m1, nc, infos) →
      nc ≠ (m1.player_tables.get tid).active_charactor_id →
      ∃ m2 evs,
        m.actionMakeDamage pid dvl tid cc = .ok (m2, evs) ∧
        (m2.player_tables.get tid).active_charactor_id = nc ∧
        ∃ pre, evs = pre ++ [EventArg.switchCharactor
          (Action.switchCharactor tid nc)
          ((m1.player_tables.get tid).active_charactor_id)]) := by
  refine ⟨?_, next_charactor_ne_active, ?_⟩
  · intro tid act f m dv rest nc infos a k ha hlen htp htc hreact hnext
    simp only [Match.makeDamageLoop, htp, htc, ha,
      pyGetD_coe _ _ _ hlen, hreact, hnext]
    simp only [ne_eq, not_true_eq_false, and_false, false_and, if_false,
      and_true, true_and, ite_false, ite_true, if_true, not_false_eq_true]
    exact ⟨_, _, _, rfl⟩
  · intro m pid dvl tid cc m1 nc infos hloop hnc
    simp only [Match.actionMakeDamage, hloop]
    rw [if_pos hnc]
    refine ⟨_, _, rfl, ?_, ⟨_, rfl⟩⟩
    simp only [Match.actionSwitchCharactor, PlayerPair.get_set_same]

/-- Observe the pending switch index and the target player's active index
of a damage-loop result. -/
def loopView (tid : Int)
    (r : Except String (Match × Int × List ReceiveDamageInfo)) :
    Option (Int × Int) :=
  match r with
  | .ok (m1, nc, _) => some (nc, (m1.player_tables.get tid).active_charactor_id)
  | .error _ => none

/-- The Overloaded-scenario active charactor: electro element with an
applied Electro aura. -/
def s2Char : Charactor := { fixChar with element_application := [.electro] }

/-- The Overloaded-scenario table: aura-carrying active charactor plus a
living backup. -/
def s2Table : PlayerTable :=
  { fixTable with charactors :=
      [s2Char, { fixChar with name := "fix2", element := .pyro }] }

/-- The Overloaded-scenario match. -/
def s2Match : Match :=
  { fixMatch with player_tables := ⟨s2Table, fixTable⟩ }

/-- Incoming Pyro damage 2 on the aura carrier: triggers Overloaded. -/
def s2dv : DamageValue :=
  { target_player_id := 0, target_charactor_id := 0, damage := 2,
    damage_type := .pyro }

/-- Witness for C5: in the concrete Overloaded scenario the loop re-runs
with pending index 1, and the full MakeDamageAction ends with the target
player's active charactor switched to index 1. -/
theorem overloadedForcesSwitch_witness :
    (∃ m1 rest1 infos1,
      Match.makeDamageLoop 0 Action.empty (0 + 1) s2Match [s2dv] 0 [] =
        Match.makeDamageLoop 0 Action.empty 0 m1 rest1 ((1 : Nat) : Int)
          infos1) ∧
    ((okState (s2Match.actionMakeDamage 1 [s2dv] 0 0)).map
      (fun mm => (mm.player_tables.get 0).active_charactor_id) =
      some 1) := by
  refine ⟨overloadedForcesSwitch.1 0 Action.empty 0 s2Match s2dv [] 0 [] 0 1
    (by decide) (by decide) (by decide) (by decide) (by decide) (by decide),
    ?_⟩
  have hproj : loopView 0 (Match.makeDamageLoop 0
      (Action.makeDamage 1 [s2dv] 0 0) (dmgFuel s2Match [s2dv]) s2Match
      [s2dv] 0 []) = some (1, 0) := by decide
  cases hcase : Match.makeDamageLoop 0 (Action.makeDamage 1 [s2dv] 0 0)
      (dmgFuel s2Match [s2dv]) s2Match [s2dv] 0 [] with
  | error e =>
      rw [hcase] at hproj
      exact absurd hproj (by simp [loopView])
  | ok trip =>
      obtain ⟨m1, nc, infos⟩ := trip
      rw [hcase] at hproj
      simp only [loopView, Option.some.injEq, Prod.mk.injEq] at hproj
      obtain ⟨rfl, hact⟩ := hproj
      have h3 := overloadedForcesSwitch.2.2 s2Match 1 [s2dv] 0 0 m1 1 infos
        hcase (by rw [hact]; decide)
      obtain ⟨m2, evs, hok, hactive, -⟩ := h3
      rw [hok]
      simp only [okState, Option.map, Option.some.injEq]
      exact hactive

/-! ## Claim C8 -/

/-- `popFold` over strictly-decreasing in-range indices collects exactly
the entries at those indices, the collected entries plus the remainder
form a permutation of the original list, and the lengths account
exactly. -/
theorem popFold_spec {α : Type} (d : α) (xs : List α) (ids : List Nat)
    (hdec : ids.Pairwise (fun x y => y < x))
    (hval : ∀ i ∈ ids, i < xs.length) :
    (popFold d xs ids).2 = ids.map (fun i => xs.getD i d) ∧
    ((popFold d xs ids).2 ++ (popFold d xs ids).1).Perm xs ∧
    xs.length = (popFold d xs ids).1.length + ids.length := by
  induction ids generalizing xs with
  | nil => simp [popFold]
  | cons i is ih =>
      have hi : i < xs.length := hval i (List.mem_cons_self i is)
      have hlt : ∀ j ∈ is, j < i := (List.pairwise_cons.mp hdec).1
      have hlen : (xs.eraseIdx i).length = xs.length - 1 := by
        rw [List.length_eraseIdx]
        simp [hi]
      have ihh := ih (xs.eraseIdx i) (List.pairwise_cons.mp hdec).2
        (fun j hj => by
          have h1 := hlt j hj
          omega)
      refine ⟨?_, ?_, ?_⟩
      · show xs.getD i d :: (popFold d (xs.eraseIdx i) is).2 = _
        rw [ihh.1]
        simp only [List.map_cons, List.cons.injEq, true_and]
        exact List.map_congr_left
          (fun j hj => getD_eraseIdx_lt xs i j d (hlt j hj))
      · show ((xs.getD i d :: (popFold d (xs.eraseIdx i) is).2) ++
            (popFold d (xs.eraseIdx i) is).1).Perm xs
        have h1 : ((popFold d (xs.eraseIdx i) is).2 ++
            (popFold d (xs.eraseIdx i) is).1).Perm (xs.eraseIdx i) := ihh.2.1
        exact ((h1.cons (xs.getD i d)).trans
          (perm_getD_cons_eraseIdx xs i d hi))
      · show xs.length = (popFold d (xs.eraseIdx i) is).1.length +
          (is.length + 1)
        have h2 := ihh.2.2
        omega

/-- Every call of `genRandomDice` yields exactly the requested number of
dice. -/
theorem genRandomDice_length (k : Nat) (s : Nat) :
    (genRandomDice k s).1.length = k := by
  induction k generalizing s with
  | zero => rfl
  | succ k ih => simp [genRandomDice, ih]

/-- A Python slice `xs[:t]` with `t` at least the length is the whole
list. -/
theorem pyTake_all {α : Type} (xs : List α) (t : Int)
    (h : (xs.length : Int) ≤ t) : pyTake xs t = xs := by
  unfold pyTake
  rw [if_pos (le_trans (Int.natCast_nonneg _) h)]
  exact List.take_of_length_le (by omega)

/-- Sorting the dice pool does not change the rest of the table and keeps
the pool a permutation of itself. -/
theorem sort_dice_perm (t : PlayerTable) :
    (t.sort_dice).dice.Perm t.dice ∧ (t.sort_dice).dice.length =
      t.dice.length := by
  unfold PlayerTable.sort_dice
  exact ⟨perm_sortBy _ _, length_sortBy _ _⟩

/-- `_action_remove_dice` leaves everything but the acting player's dice
pool (and the events) unchanged. -/
theorem actionRemoveDice_parts (m : Match) (p : Int) (ids : List Nat) :
    ((m.actionRemoveDice p ids).1.player_tables.get p) =
      PlayerTable.sort_dice { m.player_tables.get p with
        dice := (popFold DieColor.omni (m.player_tables.get p).dice
          (sortDesc ids)).1 } ∧
    (m.actionRemoveDice p ids).1.rng = m.rng ∧
    (m.actionRemoveDice p ids).1.requests = m.requests ∧
    (m.actionRemoveDice p ids).1.config = m.config := by
  simp only [Match.actionRemoveDice, PlayerPair.get_set_same]
  exact ⟨trivial, trivial, trivial, trivial⟩

/-- `_action_create_dice` with `random=True` and room for all the new dice
appends exactly the generated dice and re-sorts. -/
theorem actionCreateDice_random_parts (m : Match) (p : Int) (k : Nat)
    (hroom : (((genRandomDice k m.rng).1.length : Int)) ≤
      (m.config.max_dice_number : Int) -
        ((m.player_tables.get p).dice.length : Int)) :
    ((m.actionCreateDice p k none true false).1.player_tables.get p) =
      PlayerTable.sort_dice { m.player_tables.get p with
        dice := (m.player_tables.get p).dice ++ (genRandomDice k m.rng).1 } ∧
    (m.actionCreateDice p k none true false).1.requests = m.requests := by
  simp only [Match.actionCreateDice]
  rw [if_neg (by simp)]
  simp only [if_true, ite_true]
  rw [pyTake_all _ _ hroom]
  simp only [PlayerPair.get_set_same]
  exact ⟨trivial, trivial⟩

/-- `_action_create_dice` never changes the requests. -/
theorem actionCreateDice_requests (m : Match) (p : Int) (n : Nat)
    (c : Option DieColor) (r d : Bool) :
    (m.actionCreateDice p n c r d).1.requests = m.requests := by
  unfold Match.actionCreateDice
  repeat' split
  all_goals rfl

/-- The reroll-request bookkeeping of `_respond_reroll_dice`: the first
matching request is decremented, or removed when no reroll remains. -/
theorem updateRerollRequests_spec (pre post : List Request) (p : Int)
    (colors : List DieColor) (times : Nat)
    (hpre : ∀ r ∈ pre, ∀ c t, r ≠ Request.rerollDice p c t) :
    updateRerollRequests
        (pre ++ Request.rerollDice p colors times :: post) p =
      pre ++ (if times - 1 = 0 then post
        else Request.rerollDice p colors (times - 1) :: post) := by
  induction pre with
  | nil =>
      by_cases h1 : 1 < times
      · have h2 : ¬ (times - 1 = 0) := by omega
        simp [updateRerollRequests, h1, h2]
      · have h2 : times - 1 = 0 := by omega
        simp [updateRerollRequests, h1, h2]
  | cons r rest ih =>
      have hr := fun c t => hpre r (List.mem_cons_self r rest) c t
      have hrest : ∀ r ∈ rest, ∀ c t, r ≠ Request.rerollDice p c t :=
        fun r hm c t => hpre r (List.mem_cons_of_mem _ hm) c t
      cases r with
      | rerollDice pid c t =>
          have hpid : pid ≠ p := by
            intro he
            exact hr c t (by rw [he])
          simp only [List.cons_append, updateRerollRequests, if_neg hpid,
            List.append_eq, ih hrest]
      | switchCard pid ns =>
          simp only [List.cons_append, updateRerollRequests,
            List.append_eq, ih hrest]
      | chooseCharactor pid av =>
          simp only [List.cons_append, updateRerollRequests,
            List.append_eq, ih hrest]
      | declareRoundEnd pid =>
          simp only [List.cons_append, updateRerollRequests,
            List.append_eq, ih hrest]

/-- Under a handler set that triggers nothing, `_respond_reroll_dice` is
remove-dice, then create-dice, then the request-list update. -/
theorem respondRerollDice_eq (trig : Trig) (m : Match)
    (resp : RerollDiceResponse) (htrig : ∀ mm e, trig mm e = []) :
    Match.respondRerollDice trig m resp =
      { ((m.actionRemoveDice resp.player_id resp.reroll_dice_ids
          ).1.actionCreateDice resp.player_id resp.reroll_dice_ids.length
          none true false).1 with
        requests := updateRerollRequests
          (((m.actionRemoveDice resp.player_id resp.reroll_dice_ids
            ).1.actionCreateDice resp.player_id resp.reroll_dice_ids.length
            none true false).1.requests) resp.player_id } := by
  simp [Match.respondRerollDice, triggerEvents_nil htrig]

/-- C8: handling a RerollDiceResponse removes exactly the selected dice
(the collected entries are the pool entries at the selected indices),
creates the same number of new random dice — the resulting pool is a
permutation of the remaining dice plus the freshly generated dice and has
the same size as before — and then decrements the matching
RerollDiceRequest's reroll_times by one, removing the request exactly when
the count reaches 0 and keeping it in place with the decremented count
otherwise. -/
theorem rerollResponseSemantics (trig : Trig) (m : Match)
    (resp : RerollDiceResponse) (pre post : List Request)
    (colors : List DieColor) (times : Nat)
    (htrig : ∀ mm e, trig mm e = [])
    (hdec : (sortDesc resp.reroll_dice_ids).Pairwise (fun x y => y < x))
    (hval : ∀ i ∈ sortDesc resp.reroll_dice_ids,
      i < (m.player_tables.get resp.player_id).dice.length)
    (hmax : (m.player_tables.get resp.player_id).dice.length ≤
      m.config.max_dice_number)
    (hreq : m.requests =
      pre ++ Request.rerollDice resp.player_id colors times :: post)
    (hpre : ∀ r ∈ pre, ∀ c t, r ≠ Request.rerollDice resp.player_id c t) :
    ((Match.respondRerollDice trig m resp).player_tables.get
        resp.player_id).dice.length =
      (m.player_tables.get resp.player_id).dice.length ∧
    ((Match.respondRerollDice trig m resp).player_tables.get
        resp.player_id).dice.Perm
      ((popFold DieColor.omni (m.player_tables.get resp.player_id).dice
          (sortDesc resp.reroll_dice_ids)).1 ++
        (genRandomDice resp.reroll_dice_ids.length m.rng).1) ∧
    (popFold DieColor.omni (m.player_tables.get resp.player_id).dice
        (sortDesc resp.reroll_dice_ids)).2 =
      (sortDesc resp.reroll_dice_ids).map
        (fun i =>
          (m.player_tables.get resp.player_id).dice.getD i .omni) ∧
    (genRandomDice resp.reroll_dice_ids.length m.rng).1.length =
      resp.reroll_dice_ids.length ∧
    (Match.respondRerollDice trig m resp).requests =
      pre ++ (if times - 1 = 0 then post
        else Request.rerollDice resp.player_id colors (times - 1) ::
          post) := by
  have hpop := popFold_spec DieColor.omni
    (m.player_tables.get resp.player_id).dice
    (sortDesc resp.reroll_dice_ids) hdec hval
  have hslen : (sortDesc resp.reroll_dice_ids).length =
      resp.reroll_dice_ids.length := length_sortBy _ _
  have hglen : ∀ s : Nat,
      (genRandomDice resp.reroll_dice_ids.length s).1.length =
      resp.reroll_dice_ids.length :=
    fun s => genRandomDice_length _ s
  set M1 := (m.actionRemoveDice resp.player_id resp.reroll_dice_ids).1
    with hM1
  have hrem := actionRemoveDice_parts m resp.player_id resp.reroll_dice_ids
  have hlen1 : (M1.player_tables.get resp.player_id).dice.length +
      resp.reroll_dice_ids.length =
      (m.player_tables.get resp.player_id).dice.length := by
    rw [hrem.1]
    unfold PlayerTable.sort_dice
    simp only [length_sortBy]
    omega
  have hroom : ((genRandomDice resp.reroll_dice_ids.length
      M1.rng).1.length : Int) ≤ (M1.config.max_dice_number : Int) -
      ((M1.player_tables.get resp.player_id).dice.length : Int) := by
    rw [hrem.2.2.2, hglen]
    omega
  have hcre := actionCreateDice_random_parts M1 resp.player_id
    resp.reroll_dice_ids.length hroom
  have hresp := respondRerollDice_eq trig m resp htrig
  refine ⟨?_, ?_, hpop.1, hglen m.rng, ?_⟩
  · rw [hresp]
    show ((M1.actionCreateDice resp.player_id resp.reroll_dice_ids.length
      none true false).1.player_tables.get resp.player_id).dice.length = _
    rw [hcre.1]
    unfold PlayerTable.sort_dice
    simp only [length_sortBy, List.length_append]
    rw [hglen]
    omega
  · rw [hresp]
    show ((M1.actionCreateDice resp.player_id resp.reroll_dice_ids.length
      none true false).1.player_tables.get resp.player_id).dice.Perm _
    rw [hcre.1]
    refine ((sort_dice_perm _).1).trans ?_
    have hp2 : (M1.player_tables.get resp.player_id).dice.Perm
        (popFold DieColor.omni (m.player_tables.get resp.player_id).dice
          (sortDesc resp.reroll_dice_ids)).1 := by
      rw [hrem.1]
      exact (sort_dice_perm _).1
    rw [hrem.2.1]
    exact hp2.append_right _
  · rw [hresp]
    show updateRerollRequests
      ((M1.actionCreateDice resp.player_id resp.reroll_dice_ids.length
        none true false).1.requests) resp.player_id = _
    rw [hcre.2, hrem.2.2.1, hreq]
    exact updateRerollRequests_spec pre post resp.player_id colors times
      hpre

/-- A match whose player 0 holds one reroll request with two rerolls
left. -/
def c8Match : Match :=
  { fixMatch with requests :=
      [Request.rerollDice 0 [DieColor.omni, DieColor.pyro] 2] }

/-- Reroll both dice of player 0. -/
def c8Resp : RerollDiceResponse := { player_id := 0, reroll_dice_ids := [0, 1] }

/-- Witness for C8: rerolling both dice keeps a pool of two dice and
leaves the request with one reroll. -/
theorem rerollResponseSemantics_witness :
    ((Match.respondRerollDice trig0 c8Match c8Resp).player_tables.get
      0).dice.length = 2 ∧
    (Match.respondRerollDice trig0 c8Match c8Resp).requests =
      [Request.rerollDice 0 [DieColor.omni, DieColor.pyro] 1] := by
  have h := rerollResponseSemantics trig0 c8Match c8Resp [] []
    [DieColor.omni, DieColor.pyro] 2 (fun _ _ => rfl) (by decide)
    (by decide) (by decide) (by decide) (by simp)
  refine ⟨h.1.trans (by decide), ?_⟩
  rw [h.2.2.2.2]
  rfl

/-! ## Claim C6 -/

/-- `_action_restore_card` appends the popped cards to the bottom of the
deck and leaves rng and requests alone. -/
theorem actionRestoreCard_parts (m : Match) (p : Int) (ids : List Nat) :
    ((m.actionRestoreCard p ids).1.player_tables.get p) =
      { m.player_tables.get p with
        table_deck := (m.player_tables.get p).table_deck ++
          (popFold default (m.player_tables.get p).hands (sortDesc ids)).2,
        hands :=
          (popFold default (m.player_tables.get p).hands (sortDesc ids)).1 } ∧
    (m.actionRestoreCard p ids).1.rng = m.rng ∧
    (m.actionRestoreCard p ids).1.requests = m.requests := by
  simp only [Match.actionRestoreCard, PlayerPair.get_set_same]
  exact ⟨trivial, trivial, trivial⟩

/-- `_action_draw_card` moves the top of the deck to the back of the hand
and leaves rng and requests alone. -/
theorem actionDrawCard_parts (m : Match) (p : Int) (k : Nat) :
    ((m.actionDrawCard p k).1.player_tables.get p) =
      { m.player_tables.get p with
        hands := (m.player_tables.get p).hands ++
          (m.player_tables.get p).table_deck.take k,
        table_deck := (m.player_tables.get p).table_deck.drop k } ∧
    (m.actionDrawCard p k).1.rng = m.rng ∧
    (m.actionDrawCard p k).1.requests = m.requests := by
  simp only [Match.actionDrawCard, PlayerPair.get_set_same, take_min,
    drop_min]
  exact ⟨trivial, trivial, trivial⟩

/-- Under a handler set that triggers nothing and a successful name
resolution, `_respond_switch_card` is restore, then draw, then the
request filter. -/
theorem respondSwitchCard_eq (trig : Trig) (m : Match)
    (resp : SwitchCardResponse) (ids : List Nat)
    (htrig : ∀ mm e, trig mm e = [])
    (hres : collectAllIds ((m.player_tables.get resp.player_id).hands.map
      (fun c => c.name)) (collectCounts resp.card_names) = some ids) :
    Match.respondSwitchCard trig m resp = .ok
      { ((m.actionRestoreCard resp.player_id ids).1.actionDrawCard
          resp.player_id resp.card_ids.length).1 with
        requests := (((m.actionRestoreCard resp.player_id ids
          ).1.actionDrawCard resp.player_id resp.card_ids.length
          ).1.requests).filter
          (fun r => r.player_id ≠ resp.player_id) } := by
  simp [Match.respondSwitchCard, hres, triggerEvents_nil htrig]

/-- C6 (amended): handling a SwitchCardResponse restores the selected
cards (resolved as a name-multiset against the hand) from the hand to the
**bottom** of the deck, draws the same number of cards from the **top** of
the deck **without shuffling** — the random state is untouched — and
removes every outstanding request belonging to that player. -/
theorem switchCardNoShuffle (trig : Trig) (m : Match)
    (resp : SwitchCardResponse) (ids : List Nat)
    (htrig : ∀ mm e, trig mm e = [])
    (hres : collectAllIds ((m.player_tables.get resp.player_id).hands.map
      (fun c => c.name)) (collectCounts resp.card_names) = some ids)
    (hdec : (sortDesc ids).Pairwise (fun x y => y < x))
    (hval : ∀ i ∈ sortDesc ids,
      i < (m.player_tables.get resp.player_id).hands.length) :
    ∃ m2, Match.respondSwitchCard trig m resp = .ok m2 ∧
      m2.rng = m.rng ∧
      m2.requests = m.requests.filter
        (fun r => r.player_id ≠ resp.player_id) ∧
      (m2.player_tables.get resp.player_id).table_deck =
        ((m.player_tables.get resp.player_id).table_deck ++
          (sortDesc ids).map (fun i =>
            (m.player_tables.get resp.player_id).hands.getD i
              default)).drop resp.card_ids.length ∧
      ∃ pruned,
        (m2.player_tables.get resp.player_id).hands =
          pruned ++ ((m.player_tables.get resp.player_id).table_deck ++
            (sortDesc ids).map (fun i =>
              (m.player_tables.get resp.player_id).hands.getD i
                default)).take resp.card_ids.length ∧
        ((sortDesc ids).map (fun i =>
            (m.player_tables.get resp.player_id).hands.getD i default) ++
          pruned).Perm (m.player_tables.get resp.player_id).hands := by
  have hpop := popFold_spec (default : Card)
    (m.player_tables.get resp.player_id).hands (sortDesc ids) hdec hval
  set M1 := (m.actionRestoreCard resp.player_id ids).1 with hM1
  have hrest := actionRestoreCard_parts m resp.player_id ids
  have hdraw := actionDrawCard_parts M1 resp.player_id
    resp.card_ids.length
  have heq := respondSwitchCard_eq trig m resp ids htrig hres
  refine ⟨_, heq, ?_, ?_, ?_, ?_⟩
  · show ((M1.actionDrawCard resp.player_id
      resp.card_ids.length).1).rng = m.rng
    rw [hdraw.2.1, hrest.2.1]
  · show (((M1.actionDrawCard resp.player_id
      resp.card_ids.length).1).requests).filter
        (fun r => r.player_id ≠ resp.player_id) = _
    rw [hdraw.2.2, hrest.2.2]
  · show ((M1.actionDrawCard resp.player_id
      resp.card_ids.length).1.player_tables.get
        resp.player_id).table_deck = _
    rw [hdraw.1, hrest.1]
    simp [hpop.1]
  · refine ⟨(popFold default
      (m.player_tables.get resp.player_id).hands (sortDesc ids)).1, ?_, ?_⟩
    · show ((M1.actionDrawCard resp.player_id
        resp.card_ids.length).1.player_tables.get
          resp.player_id).hands = _
      rw [hdraw.1, hrest.1]
      simp [hpop.1]
    · have h2 := hpop.2.1
      rw [hpop.1] at h2
      exact h2

/-- The switch-card scenario: deck A B C, hand X. -/
def c6Table : PlayerTable :=
  { fixTable with table_deck := [⟨"A"⟩, ⟨"B"⟩, ⟨"C"⟩], hands := [⟨"X"⟩] }

/-- The switch-card scenario match. -/
def c6Match : Match :=
  { fixMatch with player_tables := ⟨c6Table, fixTable⟩ }

/-- Give back the only hand card X. -/
def c6Resp : SwitchCardResponse :=
  { player_id := 0, card_ids := [0], card_names := ["X"] }

/-- C6 counterexample: the source restores and draws without consuming the
random source, so it differs from the spec-worded handler (which shuffles
the deck between restore and draw): at a concrete input the random states
of the two results differ. -/
theorem switchCardShuffleMissing :
    ∃ ma mb, Match.respondSwitchCard trig0 c6Match c6Resp = .ok ma ∧
      Match.respondSwitchCardSpecver trig0 c6Match c6Resp = .ok mb ∧
      ma.rng = c6Match.rng ∧ mb.rng ≠ c6Match.rng := by
  refine ⟨_, _, rfl, rfl, by decide, by decide⟩

/-- Witness for the amended C6 at the concrete scenario: X goes to the
deck bottom, A is drawn from the top, the random state is untouched. -/
theorem switchCardNoShuffle_witness :
    ∃ m2, Match.respondSwitchCard trig0 c6Match c6Resp = .ok m2 ∧
      m2.rng = c6Match.rng ∧
      (m2.player_tables.get 0).table_deck = [⟨"B"⟩, ⟨"C"⟩, ⟨"X"⟩] ∧
      (m2.player_tables.get 0).hands = [⟨"A"⟩] := by
  obtain ⟨m2, hok, hrng, hreqs, hdeck, pruned, hh, hperm⟩ :=
    switchCardNoShuffle trig0 c6Match c6Resp [0] (fun _ _ => rfl)
      (by decide) (by decide) (by decide)
  have hpe : pruned = [] := by
    have hplen := hperm.length_eq
    have hx : (c6Match.player_tables.get c6Resp.player_id).hands =
      [(⟨"X"⟩ : Card)] := rfl
    have hs : (sortDesc [0]).length = 1 := by decide
    rw [hx] at hplen
    simp only [List.length_append, List.length_map, List.length_cons,
      List.length_nil, hs] at hplen
    exact List.eq_nil_of_length_eq_zero (by omega)
  subst hpe
  simp only [c6Resp] at hdeck hh
  refine ⟨m2, hok, hrng, ?_, ?_⟩
  · rw [hdeck]
    decide
  · rw [hh]
    decide

/-! ## Claim C2 -/

/-- C2 (code bug): drawing one card with a full hand of max_hand_size = 10
cards yields a hand of 11 cards — `_action_draw_card` enforces no hand
limit (the source marks destroying over-limit cards as a TODO) — while
`_action_create_dice` at a full pool of max_dice_number = 16 dice does
silently discard the overflow, as the claim states for dice. -/
theorem drawCardOverflowsHandLimit :
    (((overdrawMatch.actionDrawCard 0 1).1.player_tables.get
        0).hands.length = 11 ∧
      overdrawMatch.config.max_hand_size = 10) ∧
    (((fullDiceMatch.actionCreateDice 0 2 none true false
        ).1.player_tables.get 0).dice.length = 16 ∧
      fullDiceMatch.config.max_dice_number = 16) := by
  decide

end GITCG
